import Mathlib

/-!
Shallow embedding of the IP Assistant MCP server (`main.py`) and the parts of
Python's `datetime` library semantics that its scheduling logic relies on.

The three calendar tools (`_sync_schedule_meeting`, `_sync_find_available_times`,
`_sync_list_upcoming_meetings`) and the search tool (`search_patents`) are
translated as pure functions.  External collaborators (credential provider,
Calendar Client, search upstream) are passed in as `Except`/list parameters, so
that every failure a tool can observe is an explicit input.
-/

/-! ### Proleptic Gregorian calendar arithmetic (Python `datetime` semantics) -/

/-- Leap-year test of the proleptic Gregorian calendar, as used by Python's
`datetime` module. -/
def IsLeap (y : Nat) : Prop := (y % 4 = 0 ∧ y % 100 ≠ 0) ∨ y % 400 = 0

instance (y : Nat) : Decidable (IsLeap y) := by unfold IsLeap; infer_instance

/-- Days in month `m` of year `y` (months are 1-based; other inputs give 0). -/
def daysInMonth (y m : Nat) : Nat :=
  match m with
  | 1 => 31
  | 2 => if IsLeap y then 29 else 28
  | 3 => 31
  | 4 => 30
  | 5 => 31
  | 6 => 30
  | 7 => 31
  | 8 => 31
  | 9 => 30
  | 10 => 31
  | 11 => 30
  | 12 => 31
  | _ => 0

/-- Days in year `y` that precede month `m` (so `daysBeforeMonth y 1 = 0`). -/
def daysBeforeMonth (y : Nat) : Nat → Nat
  | 0 => 0
  | 1 => 0
  | m + 2 => daysBeforeMonth y (m + 1) + daysInMonth y (m + 1)

/-- Number of leap years strictly below `y` (year 0 counts as a leap year). -/
def leapsBefore (y : Nat) : Nat := (y + 3) / 4 - (y + 99) / 100 + (y + 399) / 400

/-- A wall-clock date-time as Python's naive `datetime` stores it
(microseconds are not needed by any code path modelled here). -/
structure PyDateTime where
  year : Nat
  month : Nat
  day : Nat
  hour : Nat
  minute : Nat
  second : Nat
deriving DecidableEq, Repr

/-- The date fields denote a real calendar day (no year bound: day-stepping
may legitimately walk past year 9999 before the range check fires). -/
def DateOk (dt : PyDateTime) : Prop :=
  1 ≤ dt.month ∧ dt.month ≤ 12 ∧ 1 ≤ dt.day ∧ dt.day ≤ daysInMonth dt.year dt.month

instance (dt : PyDateTime) : Decidable (DateOk dt) := by unfold DateOk; infer_instance

/-- Absolute day index of a date (day 366 is 0001-01-01, matching a rata-die
count shifted by the length of the proleptic year 0). -/
def toAbsDays (dt : PyDateTime) : Nat :=
  365 * dt.year + leapsBefore dt.year + daysBeforeMonth dt.year dt.month + (dt.day - 1)

/-- Absolute minute index of a date-time (seconds ignored, as every modelled
code path has `second = 0` where arithmetic happens). -/
def toAbsMinutes (dt : PyDateTime) : Nat :=
  1440 * toAbsDays dt + 60 * dt.hour + dt.minute

/-- Weekday index: 0 = Monday … 6 = Sunday (Python `date.weekday`). -/
def weekday (dt : PyDateTime) : Nat := (toAbsDays dt + 5) % 7

/-- Step one calendar day forward, carrying across month and year ends. -/
def nextDay (dt : PyDateTime) : PyDateTime :=
  if dt.day < daysInMonth dt.year dt.month then { dt with day := dt.day + 1 }
  else if dt.month < 12 then { dt with month := dt.month + 1, day := 1 }
  else { dt with year := dt.year + 1, month := 1, day := 1 }

/-- Step `n` calendar days forward. -/
def addDays (dt : PyDateTime) : Nat → PyDateTime
  | 0 => dt
  | n + 1 => addDays (nextDay dt) n

/-- `datetime + timedelta(minutes=k)` for a nonnegative number of minutes:
exact calendar arithmetic with minute/hour/day carries. -/
def addMinutes (dt : PyDateTime) (k : Nat) : PyDateTime :=
  let tmin := dt.minute + k
  let thr := dt.hour + tmin / 60
  addDays { dt with minute := tmin % 60, hour := thr % 24 } (thr / 24)

/-! ### strftime-style formatting (C locale, as the Python module uses it) -/

/-- The two decimal digit characters of `n % 100`, zero-padded. -/
def pad2c (n : Nat) : List Char := [Nat.digitChar (n / 10 % 10), Nat.digitChar (n % 10)]

/-- The four decimal digit characters of `n % 10000`, zero-padded. -/
def pad4c (n : Nat) : List Char :=
  [Nat.digitChar (n / 1000 % 10), Nat.digitChar (n / 100 % 10),
   Nat.digitChar (n / 10 % 10), Nat.digitChar (n % 10)]

def pad2 (n : Nat) : String := String.mk (pad2c n)

def pad4 (n : Nat) : String := String.mk (pad4c n)

/-- English month name (`%B`). -/
def monthName (m : Nat) : String :=
  match m with
  | 1 => "January" | 2 => "February" | 3 => "March" | 4 => "April"
  | 5 => "May" | 6 => "June" | 7 => "July" | 8 => "August"
  | 9 => "September" | 10 => "October" | 11 => "November" | 12 => "December"
  | _ => ""

/-- English weekday name for a weekday index (0 = Monday), `%A`. -/
def dayName (w : Nat) : String :=
  match w with
  | 0 => "Monday" | 1 => "Tuesday" | 2 => "Wednesday" | 3 => "Thursday"
  | 4 => "Friday" | 5 => "Saturday" | 6 => "Sunday"
  | _ => ""

/-- `%I`: hour on the 12-hour clock (12 for 0 and 12). -/
def hour12 (h : Nat) : Nat := if h % 12 = 0 then 12 else h % 12

/-- `%p` in the C locale. -/
def amPm (h : Nat) : String := if h < 12 then "AM" else "PM"

/-- `strftime('%I:%M %p')`. -/
def fmtIMp (dt : PyDateTime) : String :=
  pad2 (hour12 dt.hour) ++ ":" ++ pad2 dt.minute ++ " " ++ amPm dt.hour

/-- `strftime('%A, %B %d, %Y')`. -/
def fmtFullDate (dt : PyDateTime) : String :=
  dayName (weekday dt) ++ ", " ++ monthName dt.month ++ " " ++ pad2 dt.day ++ ", " ++ pad4 dt.year

/-- `strftime('%A, %B %d')`, the grouping key of `_sync_list_upcoming_meetings`. -/
def fmtDateKey (dt : PyDateTime) : String :=
  dayName (weekday dt) ++ ", " ++ monthName dt.month ++ " " ++ pad2 dt.day

/-- `strftime('%A, %B %d, %Y at %I:%M %p')`. -/
def fmtScheduleDT (dt : PyDateTime) : String := fmtFullDate dt ++ " at " ++ fmtIMp dt

/-- `datetime.isoformat()` for a microsecond-free value. -/
def isoFormat (dt : PyDateTime) : String :=
  pad4 dt.year ++ "-" ++ pad2 dt.month ++ "-" ++ pad2 dt.day ++ "T" ++
    pad2 dt.hour ++ ":" ++ pad2 dt.minute ++ ":" ++ pad2 dt.second

/-! ### `datetime.strptime` for the two format strings used by the code

CPython's `_strptime` compiles a format string to a regular expression; for
the directives used here the alternations are
`%Y = dddd`, `%m = 1[0-2]|0[1-9]|[1-9]`, `%d = 3[01]|[12]d|0[1-9]|[1-9]`,
`%H = 2[0-3]|[0-1]d|d`, `%M = [0-5]d|d`, a literal space matches one or more
whitespace characters, the whole input must be consumed, and the extracted
numbers are then handed to the range-checking `datetime` constructor.
Parsers below are written with an explicit continuation so that ordered
alternation with backtracking matches regex semantics. -/

def digitVal (c : Char) : Nat := c.toNat - 48

def isDigitChar (c : Char) : Bool := '0' ≤ c && c ≤ '9'

def isPyWs (c : Char) : Bool :=
  c = ' ' || c = '\t' || c = '\n' || c = '\r' || c = '\x0b' || c = '\x0c'

def dropPyWs : List Char → List Char
  | [] => []
  | c :: rest => if isPyWs c then dropPyWs rest else c :: rest

/-- `%Y`: exactly four digits. -/
def pYear4 {α} (cs : List Char) (k : Nat → List Char → Option α) : Option α :=
  match cs with
  | a :: b :: c :: d :: rest =>
    if isDigitChar a && isDigitChar b && isDigitChar c && isDigitChar d then
      k (1000 * digitVal a + 100 * digitVal b + 10 * digitVal c + digitVal d) rest
    else none
  | _ => none

/-- One literal character. -/
def pLitCh {α} (ch : Char) (cs : List Char) (k : List Char → Option α) : Option α :=
  match cs with
  | c :: rest => if c = ch then k rest else none
  | _ => none

/-- One-or-more whitespace characters (`\s+`, maximal munch; the following
token is always a digit here, so greed is harmless). -/
def pWs1 {α} (cs : List Char) (k : List Char → Option α) : Option α :=
  match cs with
  | c :: rest => if isPyWs c then k (dropPyWs rest) else none
  | _ => none

/-- `%m`: `1[0-2]|0[1-9]|[1-9]` with regex backtracking. -/
def pMonthRe {α} (cs : List Char) (k : Nat → List Char → Option α) : Option α :=
  (match cs with
   | '1' :: c :: rest => if '0' ≤ c && c ≤ '2' then k (10 + digitVal c) rest else none
   | _ => none) <|>
  (match cs with
   | '0' :: c :: rest => if '1' ≤ c && c ≤ '9' then k (digitVal c) rest else none
   | _ => none) <|>
  (match cs with
   | c :: rest => if '1' ≤ c && c ≤ '9' then k (digitVal c) rest else none
   | _ => none)

/-- `%d`: `3[01]|[12]\d|0[1-9]|[1-9]` with regex backtracking. -/
def pDayRe {α} (cs : List Char) (k : Nat → List Char → Option α) : Option α :=
  (match cs with
   | '3' :: c :: rest => if '0' ≤ c && c ≤ '1' then k (30 + digitVal c) rest else none
   | _ => none) <|>
  (match cs with
   | c1 :: c2 :: rest =>
     if ('1' ≤ c1 && c1 ≤ '2') && isDigitChar c2 then
       k (10 * digitVal c1 + digitVal c2) rest
     else none
   | _ => none) <|>
  (match cs with
   | '0' :: c :: rest => if '1' ≤ c && c ≤ '9' then k (digitVal c) rest else none
   | _ => none) <|>
  (match cs with
   | c :: rest => if '1' ≤ c && c ≤ '9' then k (digitVal c) rest else none
   | _ => none)

/-- `%H`: `2[0-3]|[0-1]\d|\d` with regex backtracking. -/
def pHourRe {α} (cs : List Char) (k : Nat → List Char → Option α) : Option α :=
  (match cs with
   | '2' :: c :: rest => if '0' ≤ c && c ≤ '3' then k (20 + digitVal c) rest else none
   | _ => none) <|>
  (match cs with
   | c1 :: c2 :: rest =>
     if ('0' ≤ c1 && c1 ≤ '1') && isDigitChar c2 then
       k (10 * digitVal c1 + digitVal c2) rest
     else none
   | _ => none) <|>
  (match cs with
   | c :: rest => if isDigitChar c then k (digitVal c) rest else none
   | _ => none)

/-- `%M`: `[0-5]\d|\d` with regex backtracking. -/
def pMinRe {α} (cs : List Char) (k : Nat → List Char → Option α) : Option α :=
  (match cs with
   | c1 :: c2 :: rest =>
     if ('0' ≤ c1 && c1 ≤ '5') && isDigitChar c2 then
       k (10 * digitVal c1 + digitVal c2) rest
     else none
   | _ => none) <|>
  (match cs with
   | c :: rest => if isDigitChar c then k (digitVal c) rest else none
   | _ => none)

/-- The field-extraction phase of `strptime(s, "%Y-%m-%d %H:%M")`. -/
def extractFieldsDT (cs : List Char) : Option (Nat × Nat × Nat × Nat × Nat) :=
  pYear4 cs fun y r1 =>
  pLitCh '-' r1 fun r2 =>
  pMonthRe r2 fun mo r3 =>
  pLitCh '-' r3 fun r4 =>
  pDayRe r4 fun d r5 =>
  pWs1 r5 fun r6 =>
  pHourRe r6 fun h r7 =>
  pLitCh ':' r7 fun r8 =>
  pMinRe r8 fun mi r9 =>
  if r9 = [] then some (y, mo, d, h, mi) else none

/-- The field-extraction phase of `strptime(s, "%Y-%m-%d")`. -/
def extractFieldsDate (cs : List Char) : Option (Nat × Nat × Nat) :=
  pYear4 cs fun y r1 =>
  pLitCh '-' r1 fun r2 =>
  pMonthRe r2 fun mo r3 =>
  pLitCh '-' r3 fun r4 =>
  pDayRe r4 fun d r5 =>
  if r5 = [] then some (y, mo, d) else none

/-- The range-checking `datetime(y, mo, d, h, mi, s)` constructor: `None`
models the `ValueError` Python raises on an out-of-range component. -/
def pydatetimeNew (y mo d h mi s : Nat) : Option PyDateTime :=
  if 1 ≤ y ∧ y ≤ 9999 ∧ 1 ≤ mo ∧ mo ≤ 12 ∧ 1 ≤ d ∧ d ≤ daysInMonth y mo ∧
      h ≤ 23 ∧ mi ≤ 59 ∧ s ≤ 59 then
    some ⟨y, mo, d, h, mi, s⟩
  else none

/-- `datetime.strptime(s, "%Y-%m-%d %H:%M")`, `None` on `ValueError`. -/
def parseDT (s : String) : Option PyDateTime :=
  match extractFieldsDT s.data with
  | some (y, mo, d, h, mi) => pydatetimeNew y mo d h mi 0
  | none => none

/-- `datetime.strptime(s, "%Y-%m-%d")`, `None` on `ValueError`. -/
def parseDate (s : String) : Option PyDateTime :=
  match extractFieldsDate s.data with
  | some (y, mo, d) => pydatetimeNew y mo d 0 0 0
  | none => none

/-! ### `datetime.fromisoformat` (pre-3.11 grammar)

The code applies `.replace('Z', '+00:00')` before parsing, which is the
idiom for Python versions whose `fromisoformat` accepts only
`YYYY-MM-DD[<sep>HH[:MM[:SS[.fff[fff]]]][{+|-}HH:MM[:SS]]]` with two-digit
fields.  The parsed wall-clock value is what `strftime` later renders; the
offset is validated but not otherwise used by the modelled code. -/

/-- Trailing UTC-offset part (or end of input). -/
def pIsoTz (cs : List Char) : Option Unit :=
  match cs with
  | [] => some ()
  | sign :: o1 :: o2 :: ':' :: o3 :: o4 :: rest =>
    if (sign = '+' || sign = '-') && isDigitChar o1 && isDigitChar o2 &&
        isDigitChar o3 && isDigitChar o4 &&
        (10 * digitVal o1 + digitVal o2 ≤ 23) && (10 * digitVal o3 + digitVal o4 ≤ 59) then
      match rest with
      | [] => some ()
      | ':' :: s1 :: s2 :: rest2 =>
        if isDigitChar s1 && isDigitChar s2 && (10 * digitVal s1 + digitVal s2 ≤ 59) &&
            rest2 = [] then
          some ()
        else none
      | _ => none
    else none
  | _ => none

/-- Fractional seconds (exactly three or six digits) followed by the offset. -/
def pIsoFracTz (cs : List Char) : Option Unit :=
  match cs with
  | '.' :: a :: b :: c :: rest =>
    if isDigitChar a && isDigitChar b && isDigitChar c then
      match rest with
      | d :: e :: f :: rest2 =>
        if isDigitChar d && isDigitChar e && isDigitChar f then pIsoTz rest2
        else pIsoTz rest
      | _ => pIsoTz rest
    else none
  | _ => none

/-- Time-of-day part of an ISO string, after the separator character. -/
def pIsoTime (y mo d : Nat) (cs : List Char) : Option PyDateTime :=
  match cs with
  | h1 :: h2 :: rest =>
    if isDigitChar h1 && isDigitChar h2 then
      let h := 10 * digitVal h1 + digitVal h2
      match rest with
      | ':' :: m1 :: m2 :: rest2 =>
        if isDigitChar m1 && isDigitChar m2 then
          let mi := 10 * digitVal m1 + digitVal m2
          match rest2 with
          | ':' :: s1 :: s2 :: rest3 =>
            if isDigitChar s1 && isDigitChar s2 then
              let s := 10 * digitVal s1 + digitVal s2
              match rest3 with
              | '.' :: _ =>
                match pIsoFracTz rest3 with
                | some _ => pydatetimeNew y mo d h mi s
                | none => none
              | _ =>
                match pIsoTz rest3 with
                | some _ => pydatetimeNew y mo d h mi s
                | none => none
            else none
          | _ =>
            match pIsoTz rest2 with
            | some _ => pydatetimeNew y mo d h mi 0
            | none => none
        else none
      | _ =>
        match pIsoTz rest with
        | some _ => pydatetimeNew y mo d h 0 0
        | none => none
    else none
  | _ => none

/-- `datetime.fromisoformat`, pre-3.11 grammar; `None` models `ValueError`. -/
def pFromIso (s : String) : Option PyDateTime :=
  match s.data with
  | y1 :: y2 :: y3 :: y4 :: '-' :: m1 :: m2 :: '-' :: d1 :: d2 :: rest =>
    if isDigitChar y1 && isDigitChar y2 && isDigitChar y3 && isDigitChar y4 &&
        isDigitChar m1 && isDigitChar m2 && isDigitChar d1 && isDigitChar d2 then
      let y := 1000 * digitVal y1 + 100 * digitVal y2 + 10 * digitVal y3 + digitVal y4
      let mo := 10 * digitVal m1 + digitVal m2
      let d := 10 * digitVal d1 + digitVal d2
      match rest with
      | [] => pydatetimeNew y mo d 0 0 0
      | _ :: timeRest => pIsoTime y mo d timeRest
    else none
  | _ => none

/-- `s.replace('Z', '+00:00')` — Python replaces every (single-character)
occurrence of the pattern, left to right. -/
def pyReplaceZ : List Char → List Char
  | [] => []
  | c :: rest =>
    if c = 'Z' then '+' :: '0' :: '0' :: ':' :: '0' :: '0' :: pyReplaceZ rest
    else c :: pyReplaceZ rest

/-- `datetime.fromisoformat(s.replace('Z', '+00:00'))`, the exact expression
the calendar tools apply to event timestamps. -/
def parseEventDT (s : String) : Option PyDateTime := pFromIso (String.mk (pyReplaceZ s.data))

/-! ### The tool bodies of `main.py` -/

deriving instance DecidableEq for Except

/-- A calendar event as the tools read it from the Calendar Client response:
`startRaw`/`endRaw` are `event['start'].get('dateTime', event['start'].get('date'))`
and likewise for the end; `summary` is absent when the event carries none. -/
structure GCalEvent where
  startRaw : String
  endRaw : String
  summary : Option String
deriving DecidableEq, Repr

/-- The relevant parts of the `events().insert(...).execute()` response. -/
structure InsertResult where
  hangoutLink : Option String
  htmlLink : Option String
deriving DecidableEq, Repr

/-- The event payload `_sync_schedule_meeting` submits (structured fields kept
beside their serialized `isoformat` strings). -/
structure GEventPayload where
  summary : String
  description : String
  startDt : PyDateTime
  startStr : String
  endDt : PyDateTime
  endStr : String
  timeZone : String
  attendees : List String
  remindersUseDefault : Bool
  reminderOverrides : List (String × Nat)
  conferenceRequestId : String
  conferenceSolutionType : String
deriving DecidableEq, Repr

structure ScheduleOutcome where
  output : String
  submitted : Option GEventPayload
deriving DecidableEq, Repr

def defaultDescription : String :=
  "IP Intake Meeting - Invention Disclosure Discussion\n\nScheduled via IP Assistant"

def errCreatingSuffix : String :=
  "\n\nPlease check that the date/time format is correct and try again."

/-- `f"ip-assistant-{int(datetime.now().timestamp())}"`: the wall clock is
modelled in milliseconds, so `int(...)` is division by 1000. -/
def mkConferenceRequestId (nowMs : Nat) : String :=
  "ip-assistant-" ++ Nat.repr (nowMs / 1000)

/-- `_sync_schedule_meeting`.  `svc` is the `get_calendar_service()` call,
`insertRes` the `events().insert(...).execute()` call, `nowMs` the wall
clock in milliseconds; `submitted` records the payload handed to the
Calendar Client, `none` when `insert` was never reached. -/
def scheduleMeeting (title attendeeEmail date time : String) (durationMinutes : Nat)
    (description : String) (svc : Except String Unit) (insertRes : Except String InsertResult)
    (nowMs : Nat) : ScheduleOutcome :=
  match svc with
  | .error e => ⟨"❌ Error creating meeting: " ++ e ++ errCreatingSuffix, none⟩
  | .ok _ =>
    match parseDT (date ++ " " ++ time) with
    | none =>
      ⟨"❌ Invalid date/time format. Use YYYY-MM-DD for date and HH:MM for time. Got: "
        ++ date ++ " " ++ time, none⟩
    | some startDt =>
      let endDt := addMinutes startDt durationMinutes
      if endDt.year > 9999 then
        ⟨"❌ Error creating meeting: date value out of range" ++ errCreatingSuffix, none⟩
      else
        let ev : GEventPayload :=
          { summary := title
            description := if description = "" then defaultDescription else description
            startDt := startDt
            startStr := isoFormat startDt
            endDt := endDt
            endStr := isoFormat endDt
            timeZone := "America/New_York"
            attendees := [attendeeEmail]
            remindersUseDefault := false
            reminderOverrides := [("email", 1440), ("popup", 30)]
            conferenceRequestId := mkConferenceRequestId nowMs
            conferenceSolutionType := "hangoutsMeet" }
        match insertRes with
        | .error e => ⟨"❌ Error creating meeting: " ++ e ++ errCreatingSuffix, some ev⟩
        | .ok r =>
          ⟨"✅ Meeting scheduled successfully!\n\n📅 " ++ title ++ "\n📧 Attendee: "
            ++ attendeeEmail ++ "\n🕐 " ++ fmtScheduleDT startDt ++ "\n⏱️  Duration: "
            ++ Nat.repr durationMinutes ++ " minutes\n\n🔗 Calendar: "
            ++ (r.htmlLink).getD "No calendar link" ++ "\n📹 Google Meet: "
            ++ (r.hangoutLink).getD "No video link"
            ++ "\n\nEmail invitations sent to all attendees.", some ev⟩

/-- The `events().list` request of `_sync_find_available_times`. -/
structure ListQuery where
  timeMin : String
  timeMax : String
  singleEvents : Bool
  orderBy : String
deriving DecidableEq, Repr

structure FindOutcome where
  output : String
  window : Option (PyDateTime × PyDateTime)
  query : Option ListQuery
deriving DecidableEq, Repr

/-- The fixed trio of suggested times in the no-events branch. -/
def recommendedTimes : List String := ["10:00 AM", "2:00 PM", "3:00 PM"]

/-- One iteration of the busy-slot loop; the `error` case models the
`ValueError` that `fromisoformat` raises on a malformed timestamp. -/
def busyLine (e : GCalEvent) : Except String String :=
  if (e.startRaw).data.contains 'T' then
    match parseEventDT e.startRaw with
    | none => .error ("Invalid isoformat string: " ++ e.startRaw)
    | some st =>
      match parseEventDT e.endRaw with
      | none => .error ("Invalid isoformat string: " ++ e.endRaw)
      | some en =>
        .ok ("• " ++ fmtIMp st ++ " - " ++ fmtIMp en ++ ": " ++ (e.summary).getD "Busy")
  else .ok ("• All day: " ++ (e.summary).getD "Busy")

/-- The busy-slot loop: lines in arrival order, first failure aborts. -/
def buildBusySlots : List GCalEvent → Except String (List String)
  | [] => .ok []
  | e :: rest =>
    match busyLine e with
    | .error m => .error m
    | .ok l =>
      match buildBusySlots rest with
      | .error m => .error m
      | .ok ls => .ok (l :: ls)

/-- `_sync_find_available_times`.  `listRes` is the
`events().list(...).execute()` call returning the `items` list; `window`
records `(start_of_day, end_of_day)` and `query` the request, `none` when
the parse failed before the client was called. -/
def findAvailableTimes (date : String) (durationMinutes : Nat) (svc : Except String Unit)
    (listRes : Except String (List GCalEvent)) : FindOutcome :=
  match svc with
  | .error e => ⟨"❌ Error checking availability: " ++ e, none, none⟩
  | .ok _ =>
    match parseDate date with
    | none => ⟨"❌ Invalid date format. Use YYYY-MM-DD. Got: " ++ date, none, none⟩
    | some targetDate =>
      let startOfDay := { targetDate with hour := 9, minute := 0, second := 0 }
      let endOfDay := { targetDate with hour := 17, minute := 0, second := 0 }
      let q : ListQuery :=
        { timeMin := isoFormat startOfDay ++ "Z", timeMax := isoFormat endOfDay ++ "Z",
          singleEvents := true, orderBy := "startTime" }
      match listRes with
      | .error e => ⟨"❌ Error checking availability: " ++ e, some (startOfDay, endOfDay), some q⟩
      | .ok events =>
        match events with
        | [] =>
          ⟨"✅ Fully available on " ++ fmtFullDate targetDate
            ++ "\n\nAvailable slots (business hours 9 AM - 5 PM):\n- 9:00 AM - 5:00 PM (entire day open)\n\nRecommended times for "
            ++ Nat.repr durationMinutes ++ "-minute meeting:"
            ++ String.join ((recommendedTimes).map (fun t => "\n- " ++ t)),
           some (startOfDay, endOfDay), some q⟩
        | _ =>
          match buildBusySlots events with
          | .error m =>
            ⟨"❌ Error checking availability: " ++ m, some (startOfDay, endOfDay), some q⟩
          | .ok lines =>
            ⟨"📅 Schedule for " ++ fmtFullDate targetDate ++ ":\n\nBusy times:\n"
              ++ String.intercalate "\n" lines ++ "\n\n💡 Look for "
              ++ Nat.repr durationMinutes ++ "-minute gaps between meetings for scheduling.",
             some (startOfDay, endOfDay), some q⟩

/-- The `events().list` request of `_sync_list_upcoming_meetings`. -/
structure UpQuery where
  timeMin : String
  timeMax : String
  maxResults : Nat
  singleEvents : Bool
  orderBy : String
deriving DecidableEq, Repr

structure UpcomingOutcome where
  output : String
  query : Option UpQuery
deriving DecidableEq, Repr

/-- One iteration of the grouping loop of `_sync_list_upcoming_meetings`:
`none` for an all-day event (skipped), otherwise the `(date_key, line)`
pair; `error` models a `fromisoformat` failure. -/
def upEntry (e : GCalEvent) : Except String (Option (String × String)) :=
  if (e.startRaw).data.contains 'T' then
    match parseEventDT e.startRaw with
    | none => .error ("Invalid isoformat string: " ++ e.startRaw)
    | some dt =>
      .ok (some (fmtDateKey dt, "  • " ++ fmtIMp dt ++ ": " ++ (e.summary).getD "No title"))
  else .ok none

/-- All `(date_key, line)` pairs in arrival order, timed events only. -/
def upPairs : List GCalEvent → Except String (List (String × String))
  | [] => .ok []
  | e :: rest =>
    match upEntry e with
    | .error m => .error m
    | .ok (some pr) =>
      match upPairs rest with
      | .error m => .error m
      | .ok ps => .ok (pr :: ps)
    | .ok none => upPairs rest

/-- Python-dict insertion: append the line to the entry with this key if one
exists anywhere, otherwise append a fresh entry at the end. -/
def insertGroup (gs : List (String × List String)) (key line : String) :
    List (String × List String) :=
  if gs.any (fun g => g.1 = key) then
    gs.map (fun g => if g.1 = key then (g.1, g.2 ++ [line]) else g)
  else gs ++ [(key, [line])]

/-- The `meetings_by_date` dict in insertion order. -/
def groupPairs (ps : List (String × String)) : List (String × List String) :=
  ps.foldl (fun gs p => insertGroup gs p.1 p.2) []

/-- The final `"\n".join(output)` rendering. -/
def renderUpcoming (daysAhead : Nat) (gs : List (String × List String)) : String :=
  String.intercalate "\n"
    (("📅 Upcoming meetings (next " ++ Nat.repr daysAhead ++ " days):\n") ::
      ((gs.map (fun g => (g.1 ++ ":") :: g.2 ++ [""])).flatten))

/-- `_sync_list_upcoming_meetings`.  `now` is `datetime.utcnow()`; `avail` is
the start-ordered list of events in the requested window that the Calendar
Client would serve.  Modelled from the spec: the Calendar Client is an
external collaborator, and serving at most `maxResults` items is its
documented truncation behaviour, not code under `src/`. -/
def listUpcomingMeetings (daysAhead : Nat) (now : PyDateTime) (svc : Except String Unit)
    (avail : List GCalEvent) : UpcomingOutcome :=
  match svc with
  | .error e => ⟨"❌ Error listing meetings: " ++ e, none⟩
  | .ok _ =>
    let endDate := addMinutes now (1440 * daysAhead)
    if endDate.year > 9999 then ⟨"❌ Error listing meetings: date value out of range", none⟩
    else
      let q : UpQuery :=
        { timeMin := isoFormat now ++ "Z", timeMax := isoFormat endDate ++ "Z",
          maxResults := 20, singleEvents := true, orderBy := "startTime" }
      let events := avail.take q.maxResults
      match events with
      | [] => ⟨"📭 No upcoming meetings in the next " ++ Nat.repr daysAhead ++ " days.", some q⟩
      | _ =>
        match upPairs events with
        | .error m => ⟨"❌ Error listing meetings: " ++ m, some q⟩
        | .ok ps => ⟨renderUpcoming daysAhead (groupPairs ps), some q⟩

/-- Outcome of the single HTTP call `search_patents` makes: a response with
a status and (for 200) the `result["choices"][0]["message"]["content"]`
extraction, a timeout, or any other raised failure. -/
inductive SearchOutcome where
  | resp (status : Nat) (extract : Except String String)
  | timeout
  | exc (msg : String)
deriving Repr

/-- The prompt `search_patents` builds. -/
def searchPrompt (query focus : String) : String :=
  if focus = "patents" then
    "Search for patents and prior art related to: " ++ query
      ++ "\n\nPlease provide:\n1. Specific US patent numbers (format: US 1,234,567)\n2. International patents (PCT, EPO, CN, JP)\n3. Publication dates\n4. Brief description of the technical approach\n5. Key differences from the query\n\nFocus on the most relevant 3-5 patents."
  else "Search for technical information about: " ++ query

/-- `search_patents`: every failure is converted to a string at the boundary. -/
def searchPatents (_q _focus : String) (out : SearchOutcome) : String :=
  match out with
  | .resp status extract =>
    if status = 200 then
      match extract with
      | .ok content => content
      | .error m => "Error searching patents: " ++ m
    else "Error: Perplexity API returned status " ++ Nat.repr status
  | .timeout => "Error: Search request timed out. Please try again."
  | .exc m => "Error searching patents: " ++ m

/-! ### Digit-character facts -/

theorem digitVal_digitChar {n : Nat} (h : n < 10) : digitVal (Nat.digitChar n) = n := by
  interval_cases n <;> rfl

theorem isDigitChar_digitChar {n : Nat} (h : n < 10) : isDigitChar (Nat.digitChar n) = true := by
  interval_cases n <;> rfl

theorem isPyWs_digitChar {n : Nat} (h : n < 10) : isPyWs (Nat.digitChar n) = false := by
  interval_cases n <;> rfl

theorem digitChar_inj {a b : Nat} (ha : a < 10) (hb : b < 10)
    (h : Nat.digitChar a = Nat.digitChar b) : a = b := by
  have := congrArg digitVal h
  rwa [digitVal_digitChar ha, digitVal_digitChar hb] at this

/-! ### Calendar-arithmetic correctness -/

theorem daysInMonth_pos {y m : Nat} (h1 : 1 ≤ m) (h2 : m ≤ 12) : 1 ≤ daysInMonth y m := by
  interval_cases m <;> simp only [daysInMonth] <;> first | omega | (split <;> omega)

theorem daysInMonth_le_31 {y m : Nat} : daysInMonth y m ≤ 31 := by
  unfold daysInMonth
  split
  case _ => omega
  case _ => split <;> omega
  all_goals omega

theorem leapsBefore_succ (y : Nat) :
    leapsBefore (y + 1) = leapsBefore y + (if IsLeap y then 1 else 0) := by
  unfold leapsBefore IsLeap
  split <;> omega

theorem daysBeforeMonth_13 (y : Nat) :
    daysBeforeMonth y 13 = 365 + (if IsLeap y then 1 else 0) := by
  show daysBeforeMonth y 13 = _
  by_cases h : IsLeap y <;> simp [daysBeforeMonth, daysInMonth, h]

theorem toAbsDays_nextDay {dt : PyDateTime} (h : DateOk dt) :
    toAbsDays (nextDay dt) = toAbsDays dt + 1 ∧ DateOk (nextDay dt) := by
  obtain ⟨y, mo, d, hh, mm, ss⟩ := dt
  obtain ⟨hm1, hm12, hd1, hdm⟩ := h
  simp only [DateOk] at hm1 hm12 hd1 hdm ⊢
  unfold nextDay
  try simp only
  split
  · rename_i hlt
    try simp only at hlt
    constructor
    · simp only [toAbsDays]
      omega
    · exact ⟨hm1, hm12, by show 1 ≤ d + 1; omega, by show d + 1 ≤ daysInMonth y mo; omega⟩
  · rename_i hge
    try simp only at hge
    have hdeq : d = daysInMonth y mo := by omega
    split
    · rename_i hmlt
      try simp only at hmlt
      obtain ⟨m', rfl⟩ : ∃ m', mo = m' + 1 := ⟨mo - 1, by omega⟩
      have hstep : daysBeforeMonth y (m' + 1 + 1) =
          daysBeforeMonth y (m' + 1) + daysInMonth y (m' + 1) := rfl
      constructor
      · simp only [toAbsDays]
        rw [hstep]
        omega
      · refine ⟨?_, ?_, ?_, ?_⟩
        · show 1 ≤ m' + 1 + 1
          omega
        · show m' + 1 + 1 ≤ 12
          omega
        · show 1 ≤ 1
          omega
        · show 1 ≤ daysInMonth y (m' + 1 + 1)
          exact daysInMonth_pos (by omega) (by omega)
    · rename_i hmge
      try simp only at hmge
      have hmo : mo = 12 := by omega
      subst hmo
      have h13 : daysBeforeMonth y 13 = 365 + (if IsLeap y then 1 else 0) :=
        daysBeforeMonth_13 y
      have hstep : daysBeforeMonth y 13 =
          daysBeforeMonth y 12 + daysInMonth y 12 := rfl
      have h31 : daysInMonth y 12 = 31 := rfl
      have hls := leapsBefore_succ y
      constructor
      · simp only [toAbsDays]
        have hz : daysBeforeMonth (y + 1) 1 = 0 := rfl
        by_cases hL : IsLeap y <;> simp only [hL, if_true, if_false] at h13 hls <;> omega
      · refine ⟨?_, ?_, ?_, ?_⟩
        · show 1 ≤ 1
          omega
        · show (1 : Nat) ≤ 12
          omega
        · show 1 ≤ 1
          omega
        · show 1 ≤ daysInMonth (y + 1) 1
          simp [daysInMonth]

theorem nextDay_time (dt : PyDateTime) :
    (nextDay dt).hour = dt.hour ∧ (nextDay dt).minute = dt.minute ∧
      (nextDay dt).second = dt.second := by
  unfold nextDay
  split
  · exact ⟨rfl, rfl, rfl⟩
  · split <;> exact ⟨rfl, rfl, rfl⟩

theorem toAbsDays_addDays {dt : PyDateTime} (h : DateOk dt) (n : Nat) :
    toAbsDays (addDays dt n) = toAbsDays dt + n ∧ DateOk (addDays dt n) ∧
      (addDays dt n).hour = dt.hour ∧ (addDays dt n).minute = dt.minute ∧
      (addDays dt n).second = dt.second := by
  induction n generalizing dt with
  | zero => exact ⟨rfl, h, rfl, rfl, rfl⟩
  | succ n ih =>
    obtain ⟨habs, hok⟩ := toAbsDays_nextDay h
    obtain ⟨ih1, ih2, ih3, ih4, ih5⟩ := ih hok
    obtain ⟨t1, t2, t3⟩ := nextDay_time dt
    have hunf : addDays dt (n + 1) = addDays (nextDay dt) n := rfl
    rw [hunf, ih1, ih3, ih4, ih5, t1, t2, t3, habs]
    exact ⟨by omega, ih2, rfl, rfl, rfl⟩

theorem addMinutes_spec {dt : PyDateTime} (h : DateOk dt) (hh : dt.hour ≤ 23)
    (hm : dt.minute ≤ 59) (k : Nat) :
    toAbsMinutes (addMinutes dt k) = toAbsMinutes dt + k ∧ DateOk (addMinutes dt k) ∧
      (addMinutes dt k).hour ≤ 23 ∧ (addMinutes dt k).minute ≤ 59 := by
  obtain ⟨y, mo, d, hr, mi, ss⟩ := dt
  obtain ⟨hm1, hm12, hd1, hdm⟩ := h
  simp only [DateOk] at hm1 hm12 hd1 hdm
  simp only at hh hm
  have hunf : addMinutes ⟨y, mo, d, hr, mi, ss⟩ k =
      addDays ⟨y, mo, d, (hr + (mi + k) / 60) % 24, (mi + k) % 60, ss⟩
        ((hr + (mi + k) / 60) / 24) := rfl
  rw [hunf]
  have hok' : DateOk ⟨y, mo, d, (hr + (mi + k) / 60) % 24, (mi + k) % 60, ss⟩ :=
    ⟨hm1, hm12, hd1, hdm⟩
  obtain ⟨h1, h2, h3, h4, h5⟩ := toAbsDays_addDays hok' ((hr + (mi + k) / 60) / 24)
  refine ⟨?_, h2, ?_, ?_⟩
  · unfold toAbsMinutes
    rw [h1, h3, h4]
    have hd2 : toAbsDays ⟨y, mo, d, (hr + (mi + k) / 60) % 24, (mi + k) % 60, ss⟩ =
        toAbsDays ⟨y, mo, d, hr, mi, ss⟩ := rfl
    rw [hd2]
    simp only
    omega
  · rw [h3]; simp only; omega
  · rw [h4]; simp only; omega

/-- The largest minute index a Python `datetime` can carry. -/
def maxAbsMinutes : Nat := toAbsMinutes ⟨9999, 12, 31, 23, 59, 0⟩

theorem year_le_of_absMinutes_le {dt : PyDateTime}
    (hle : toAbsMinutes dt ≤ maxAbsMinutes) : dt.year ≤ 9999 := by
  by_contra hgt
  have hy : 10000 ≤ dt.year := by omega
  have hmax : maxAbsMinutes = 5259491999 := by decide
  have hlow : 365 * dt.year + leapsBefore dt.year ≤ toAbsDays dt := by
    unfold toAbsDays; omega
  have : 3652425 ≤ toAbsDays dt := by
    unfold leapsBefore at hlow
    omega
  unfold toAbsMinutes at hle
  omega

/-! ### Injectivity of `Nat.repr` (used to settle the request-id claim) -/

/-- Reference decimal rendering: most significant digit first. -/
def decChars (n : Nat) : List Char :=
  if n < 10 then [Nat.digitChar n]
  else decChars (n / 10) ++ [Nat.digitChar (n % 10)]
decreasing_by exact Nat.div_lt_self (by omega) (by omega)

theorem decChars_eq (n : Nat) : decChars n =
    if n < 10 then [Nat.digitChar n] else decChars (n / 10) ++ [Nat.digitChar (n % 10)] := by
  rw [decChars]

theorem decChars_ne_nil (n : Nat) : decChars n ≠ [] := by
  rw [decChars_eq]
  split <;> simp

theorem toDigitsCore_eq_decChars :
    ∀ fuel n ds, n < fuel → Nat.toDigitsCore 10 fuel n ds = decChars n ++ ds := by
  intro fuel
  induction fuel with
  | zero => omega
  | succ fuel ih =>
    intro n ds hlt
    show (if n / 10 = 0 then Nat.digitChar (n % 10) :: ds
      else Nat.toDigitsCore 10 fuel (n / 10) (Nat.digitChar (n % 10) :: ds)) = _
    split
    · rename_i hz
      have h10 : n < 10 := by omega
      rw [decChars_eq, if_pos h10, Nat.mod_eq_of_lt h10]
      rfl
    · rename_i hnz
      have h10 : ¬ n < 10 := by
        intro hc
        exact hnz (Nat.div_eq_of_lt hc)
      rw [ih (n / 10) (Nat.digitChar (n % 10) :: ds) (by omega)]
      rw [decChars_eq n, if_neg h10]
      simp

theorem decChars_inj : ∀ m n : Nat, decChars m = decChars n → m = n := by
  intro m
  induction m using Nat.strong_induction_on with
  | _ m ih =>
    intro n h
    by_cases hm : m < 10 <;> by_cases hn : n < 10
    · rw [decChars_eq m, if_pos hm, decChars_eq n, if_pos hn] at h
      simp only [List.cons.injEq, and_true] at h
      exact digitChar_inj hm hn h
    · rw [decChars_eq m, if_pos hm, decChars_eq n, if_neg hn] at h
      have hlen := congrArg List.length h
      simp only [List.length_append, List.length_cons, List.length_nil] at hlen
      have hnn := decChars_ne_nil (n / 10)
      have hz : (decChars (n / 10)).length = 0 := by omega
      exact absurd (List.length_eq_zero.mp hz) hnn
    · rw [decChars_eq m, if_neg hm, decChars_eq n, if_pos hn] at h
      have hlen := congrArg List.length h
      simp only [List.length_append, List.length_cons, List.length_nil] at hlen
      have hnn := decChars_ne_nil (m / 10)
      have hz : (decChars (m / 10)).length = 0 := by omega
      exact absurd (List.length_eq_zero.mp hz) hnn
    · rw [decChars_eq m, if_neg hm, decChars_eq n, if_neg hn] at h
      have hlen : ([Nat.digitChar (m % 10)] : List Char).length =
          ([Nat.digitChar (n % 10)] : List Char).length := rfl
      obtain ⟨h1, h2⟩ := List.append_inj' h hlen
      have hdiv : m / 10 = n / 10 := ih (m / 10) (Nat.div_lt_self (by omega) (by omega)) _ h1
      simp only [List.cons.injEq, and_true] at h2
      have hmod : m % 10 = n % 10 :=
        digitChar_inj (Nat.mod_lt _ (by omega)) (Nat.mod_lt _ (by omega)) h2
      omega

theorem nat_repr_inj {m n : Nat} (h : Nat.repr m = Nat.repr n) : m = n := by
  unfold Nat.repr Nat.toDigits at h
  rw [toDigitsCore_eq_decChars (m + 1) m [] (by omega),
      toDigitsCore_eq_decChars (n + 1) n [] (by omega)] at h
  simp only [List.append_nil, List.asString] at h
  exact decChars_inj m n (congrArg String.data h)

/-! ### Validity of `strptime`-produced values -/

theorem pydatetimeNew_some {y mo d h mi s : Nat} {dt : PyDateTime}
    (hp : pydatetimeNew y mo d h mi s = some dt) :
    dt = ⟨y, mo, d, h, mi, s⟩ ∧ 1 ≤ y ∧ y ≤ 9999 ∧ DateOk dt ∧ h ≤ 23 ∧ mi ≤ 59 ∧ s ≤ 59 := by
  unfold pydatetimeNew at hp
  split at hp
  · rename_i hc
    obtain ⟨c1, c2, c3, c4, c5, c6, c7, c8, c9⟩ := hc
    cases hp
    exact ⟨rfl, c1, c2, ⟨c3, c4, c5, c6⟩, c7, c8, c9⟩
  · cases hp

theorem parseDT_valid {str : String} {dt : PyDateTime} (hp : parseDT str = some dt) :
    1 ≤ dt.year ∧ dt.year ≤ 9999 ∧ DateOk dt ∧ dt.hour ≤ 23 ∧ dt.minute ≤ 59 ∧
      dt.second = 0 := by
  unfold parseDT at hp
  split at hp
  · rename_i y mo d h mi heq
    obtain ⟨hdt, c1, c2, c3, c4, c5, _⟩ := pydatetimeNew_some hp
    subst hdt
    exact ⟨c1, c2, c3, c4, c5, rfl⟩
  · cases hp

theorem parseDate_valid {str : String} {dt : PyDateTime} (hp : parseDate str = some dt) :
    1 ≤ dt.year ∧ dt.year ≤ 9999 ∧ DateOk dt ∧ dt.hour = 0 ∧ dt.minute = 0 ∧
      dt.second = 0 := by
  unfold parseDate at hp
  split at hp
  · rename_i y mo d heq
    obtain ⟨hdt, c1, c2, c3, _, _, _⟩ := pydatetimeNew_some hp
    subst hdt
    exact ⟨c1, c2, c3, rfl, rfl, rfl⟩
  · cases hp

/-! ### `strptime` accepts every strictly formatted date/time -/

theorem pYear4_pad4 {α} {y : Nat} (hy : y ≤ 9999) (rest : List Char)
    (k : Nat → List Char → Option α) : pYear4 (pad4c y ++ rest) k = k y rest := by
  have a3 : y / 1000 % 10 < 10 := Nat.mod_lt _ (by omega)
  have a2 : y / 100 % 10 < 10 := Nat.mod_lt _ (by omega)
  have a1 : y / 10 % 10 < 10 := Nat.mod_lt _ (by omega)
  have a0 : y % 10 < 10 := Nat.mod_lt _ (by omega)
  simp only [pad4c, List.cons_append, List.nil_append, pYear4,
    isDigitChar_digitChar a3, isDigitChar_digitChar a2, isDigitChar_digitChar a1,
    isDigitChar_digitChar a0, Bool.and_self, if_true,
    digitVal_digitChar a3, digitVal_digitChar a2, digitVal_digitChar a1,
    digitVal_digitChar a0]
  congr 1
  omega

theorem pLitCh_cons {α} (ch : Char) (rest : List Char) (k : List Char → Option α) :
    pLitCh ch (ch :: rest) k = k rest := by
  simp [pLitCh]

theorem dropPyWs_digit {n : Nat} (h : n < 10) (cs : List Char) :
    dropPyWs (Nat.digitChar n :: cs) = Nat.digitChar n :: cs := by
  simp [dropPyWs, isPyWs_digitChar h]

theorem pWs1_space {α} (cs : List Char) (k : List Char → Option α) :
    pWs1 (' ' :: cs) k = k (dropPyWs cs) := by
  simp [pWs1, isPyWs]

theorem pMonthRe_pad2 {α} {mo : Nat} (h1 : 1 ≤ mo) (h2 : mo ≤ 12) {rest : List Char}
    {k : Nat → List Char → Option α} {v : α} (hk : k mo rest = some v) :
    pMonthRe (pad2c mo ++ rest) k = some v := by
  interval_cases mo <;> simp [pMonthRe, pad2c, Nat.digitChar, isDigitChar, digitVal, hk]

theorem pDayRe_pad2 {α} {d : Nat} (h1 : 1 ≤ d) (h2 : d ≤ 31) {rest : List Char}
    {k : Nat → List Char → Option α} {v : α} (hk : k d rest = some v) :
    pDayRe (pad2c d ++ rest) k = some v := by
  interval_cases d <;> simp [pDayRe, pad2c, Nat.digitChar, isDigitChar, digitVal, hk]

theorem pHourRe_pad2 {α} {h : Nat} (h2 : h ≤ 23) {rest : List Char}
    {k : Nat → List Char → Option α} {v : α} (hk : k h rest = some v) :
    pHourRe (pad2c h ++ rest) k = some v := by
  interval_cases h <;> simp [pHourRe, pad2c, Nat.digitChar, isDigitChar, digitVal, hk]

theorem pMinRe_pad2 {α} {mi : Nat} (h2 : mi ≤ 59) {rest : List Char}
    {k : Nat → List Char → Option α} {v : α} (hk : k mi rest = some v) :
    pMinRe (pad2c mi ++ rest) k = some v := by
  interval_cases mi <;> simp [pMinRe, pad2c, Nat.digitChar, isDigitChar, digitVal, hk]

theorem extractFieldsDT_pad {y mo d h mi : Nat} (hy : y ≤ 9999) (hmo1 : 1 ≤ mo)
    (hmo : mo ≤ 12) (hd1 : 1 ≤ d) (hd : d ≤ 31) (hh : h ≤ 23) (hmi : mi ≤ 59) :
    extractFieldsDT (pad4c y ++ '-' :: (pad2c mo ++ '-' :: (pad2c d ++ ' ' ::
      (pad2c h ++ ':' :: pad2c mi)))) = some (y, mo, d, h, mi) := by
  unfold extractFieldsDT
  rw [pYear4_pad4 hy]
  rw [pLitCh_cons]
  apply pMonthRe_pad2 hmo1 hmo
  rw [pLitCh_cons]
  apply pDayRe_pad2 hd1 hd
  rw [pWs1_space]
  have hhead : pad2c h ++ ':' :: pad2c mi =
      Nat.digitChar (h / 10 % 10) :: (Nat.digitChar (h % 10) :: ':' :: pad2c mi) := rfl
  rw [hhead, dropPyWs_digit (Nat.mod_lt _ (by omega)), ← hhead]
  apply pHourRe_pad2 hh
  rw [pLitCh_cons]
  apply pMinRe_pad2 hmi
  rfl

theorem extractFieldsDate_pad {y mo d : Nat} (hy : y ≤ 9999) (hmo1 : 1 ≤ mo)
    (hmo : mo ≤ 12) (hd1 : 1 ≤ d) (hd : d ≤ 31) :
    extractFieldsDate (pad4c y ++ '-' :: (pad2c mo ++ '-' :: pad2c d)) = some (y, mo, d) := by
  unfold extractFieldsDate
  rw [pYear4_pad4 hy]
  rw [pLitCh_cons]
  apply pMonthRe_pad2 hmo1 hmo
  rw [pLitCh_cons]
  apply pDayRe_pad2 hd1 hd
  rfl

theorem parseDT_pad {y mo d h mi : Nat} (hy1 : 1 ≤ y) (hy : y ≤ 9999) (hmo1 : 1 ≤ mo)
    (hmo : mo ≤ 12) (hd1 : 1 ≤ d) (hd : d ≤ daysInMonth y mo) (hh : h ≤ 23) (hmi : mi ≤ 59) :
    parseDT (pad4 y ++ "-" ++ pad2 mo ++ "-" ++ pad2 d ++ " " ++ pad2 h ++ ":" ++ pad2 mi) =
      some ⟨y, mo, d, h, mi, 0⟩ := by
  have hd31 : d ≤ 31 := le_trans hd daysInMonth_le_31
  unfold parseDT
  have hdata : (pad4 y ++ "-" ++ pad2 mo ++ "-" ++ pad2 d ++ " " ++ pad2 h ++ ":" ++ pad2 mi).data
      = pad4c y ++ '-' :: (pad2c mo ++ '-' :: (pad2c d ++ ' ' ::
          (pad2c h ++ ':' :: pad2c mi))) := rfl
  rw [hdata, extractFieldsDT_pad hy hmo1 hmo hd1 hd31 hh hmi]
  show pydatetimeNew y mo d h mi 0 = _
  unfold pydatetimeNew
  rw [if_pos ⟨hy1, hy, hmo1, hmo, hd1, hd, hh, hmi, by omega⟩]

theorem parseDate_pad {y mo d : Nat} (hy1 : 1 ≤ y) (hy : y ≤ 9999) (hmo1 : 1 ≤ mo)
    (hmo : mo ≤ 12) (hd1 : 1 ≤ d) (hd : d ≤ daysInMonth y mo) :
    parseDate (pad4 y ++ "-" ++ pad2 mo ++ "-" ++ pad2 d) = some ⟨y, mo, d, 0, 0, 0⟩ := by
  have hd31 : d ≤ 31 := le_trans hd daysInMonth_le_31
  unfold parseDate
  have hdata : (pad4 y ++ "-" ++ pad2 mo ++ "-" ++ pad2 d).data
      = pad4c y ++ '-' :: (pad2c mo ++ '-' :: pad2c d) := rfl
  rw [hdata, extractFieldsDate_pad hy hmo1 hmo hd1 hd31]
  show pydatetimeNew y mo d 0 0 0 = _
  unfold pydatetimeNew
  rw [if_pos ⟨hy1, hy, hmo1, hmo, hd1, hd, by omega, by omega, by omega⟩]

/-- Modelled from the spec: the spec's property "parsing followed by
formatting back to the same display pattern" needs a `strftime('%Y-%m-%d')`
formatter, which `main.py` itself never invokes; this is that formatter as
the Python documentation specifies it (each field zero-padded). -/
def strftimeYmd (dt : PyDateTime) : String :=
  pad4 dt.year ++ "-" ++ pad2 dt.month ++ "-" ++ pad2 dt.day

/-- Modelled from the spec: the `strftime('%H:%M')` display formatter for the
time component, zero-padded per the Python documentation. -/
def strftimeHM (dt : PyDateTime) : String := pad2 dt.hour ++ ":" ++ pad2 dt.minute

/-! ### Claim C9 -/

/-- C9: for every well-formed `(date, time)` pair in the accepted formats
(`YYYY-MM-DD` and `HH:MM`, 24-hour, denoting a real calendar instant —
characterised as the zero-padded rendering of in-range field values),
`strptime` parsing as `_sync_schedule_meeting` performs it succeeds, and
formatting the parsed value back with the same display pattern returns the
original date and time strings. -/
theorem c9_parse_format_roundtrip (ds ts : String) {y mo d h mi : Nat}
    (hy1 : 1 ≤ y) (hy : y ≤ 9999) (hmo1 : 1 ≤ mo) (hmo : mo ≤ 12) (hd1 : 1 ≤ d)
    (hd : d ≤ daysInMonth y mo) (hh : h ≤ 23) (hmi : mi ≤ 59)
    (hds : ds = pad4 y ++ "-" ++ pad2 mo ++ "-" ++ pad2 d)
    (hts : ts = pad2 h ++ ":" ++ pad2 mi) :
    parseDT (ds ++ " " ++ ts) = some ⟨y, mo, d, h, mi, 0⟩ ∧
      strftimeYmd ⟨y, mo, d, h, mi, 0⟩ = ds ∧ strftimeHM ⟨y, mo, d, h, mi, 0⟩ = ts := by
  subst hds hts
  refine ⟨?_, rfl, rfl⟩
  have hb : ((pad4 y ++ "-" ++ pad2 mo ++ "-" ++ pad2 d) ++ " " ++ (pad2 h ++ ":" ++ pad2 mi))
      = pad4 y ++ "-" ++ pad2 mo ++ "-" ++ pad2 d ++ " " ++ pad2 h ++ ":" ++ pad2 mi := by
    apply congrArg String.mk
    show _ ++ _ = _
    simp [pad4, pad2, List.append_assoc]
  rw [hb]
  exact parseDT_pad hy1 hy hmo1 hmo hd1 hd hh hmi

/-- Witness for C9 at date `2025-06-10`, time `14:00`. -/
theorem c9_witness :
    parseDT ("2025-06-10" ++ " " ++ "14:00") = some ⟨2025, 6, 10, 14, 0, 0⟩ ∧
      strftimeYmd ⟨2025, 6, 10, 14, 0, 0⟩ = "2025-06-10" ∧
      strftimeHM ⟨2025, 6, 10, 14, 0, 0⟩ = "14:00" :=
  c9_parse_format_roundtrip "2025-06-10" "14:00" (by omega) (by omega) (by omega)
    (by omega) (by omega) (by decide) (by omega) (by omega) (by decide) (by decide)

/-! ### Claim C1 -/

/-- Modelled from the spec: the spec-side textual format `YYYY-MM-DD`
(four digits, dash, two digits, dash, two digits). -/
def specMatchesYmd (s : String) : Bool :=
  match s.data with
  | [a, b, c, d, '-', e, f, '-', g, h] =>
    isDigitChar a && isDigitChar b && isDigitChar c && isDigitChar d &&
      isDigitChar e && isDigitChar f && isDigitChar g && isDigitChar h
  | _ => false

/-- Modelled from the spec: the spec-side textual format `HH:MM` (24h). -/
def specMatchesHM24 (s : String) : Bool :=
  match s.data with
  | [a, b, ':', c, d] =>
    isDigitChar a && isDigitChar b && isDigitChar c && isDigitChar d &&
      decide (10 * digitVal a + digitVal b ≤ 23) && decide (10 * digitVal c + digitVal d ≤ 59)
  | _ => false

/-- Counterexample to C1 as stated: the pair `("2025-6-10", "14:00")` does
not match `YYYY-MM-DD` / `HH:MM`, yet `_sync_schedule_meeting` parses it
(CPython's `strptime` accepts an unpadded month) and submits an event
instead of returning the invalid-format message. -/
theorem c1_counterexample :
    specMatchesYmd "2025-6-10" = false ∧ specMatchesHM24 "14:00" = true ∧
      (scheduleMeeting "Sync" "alice@example.com" "2025-6-10" "14:00" 60 ""
        (.ok ()) (.ok ⟨none, none⟩) 0).submitted.isSome = true := by
  refine ⟨rfl, rfl, ?_⟩
  decide

/-- C1 (amended): for every date/time pair that the parser rejects (the
parser accepts `YYYY-MM-DD` / `HH:MM` and, more leniently, unpadded
single-digit fields), `_sync_schedule_meeting` returns the invalid-format
message, which contains the literal received date and time values, and
never submits an event to the Calendar Client. -/
theorem c1_invalid_format_echoes_and_skips_insert
    (title attendee date time desc : String) (dur : Nat)
    (ins : Except String InsertResult) (nowMs : Nat)
    (hp : parseDT (date ++ " " ++ time) = none) :
    (scheduleMeeting title attendee date time dur desc (.ok ()) ins nowMs).output =
        "❌ Invalid date/time format. Use YYYY-MM-DD for date and HH:MM for time. Got: "
          ++ date ++ " " ++ time ∧
      (scheduleMeeting title attendee date time dur desc (.ok ()) ins nowMs).submitted = none ∧
      (∃ u v, (scheduleMeeting title attendee date time dur desc (.ok ()) ins
        nowMs).output.data = u ++ date.data ++ v) ∧
      (∃ u v, (scheduleMeeting title attendee date time dur desc (.ok ()) ins
        nowMs).output.data = u ++ time.data ++ v) := by
  have hout : scheduleMeeting title attendee date time dur desc (.ok ()) ins nowMs =
      ⟨"❌ Invalid date/time format. Use YYYY-MM-DD for date and HH:MM for time. Got: "
        ++ date ++ " " ++ time, none⟩ := by
    unfold scheduleMeeting
    rw [hp]
  rw [hout]
  refine ⟨rfl, rfl, ?_, ?_⟩
  · exact ⟨("❌ Invalid date/time format. Use YYYY-MM-DD for date and HH:MM for time. Got: "
      : String).data, (" " ++ time).data, by simp⟩
  · exact ⟨("❌ Invalid date/time format. Use YYYY-MM-DD for date and HH:MM for time. Got: "
      ++ date ++ " ").data, [], by simp⟩

/-- Witness for C1's amended theorem at the spec's own example
`date = "13-06-2025"`. -/
theorem c1_witness :
    (scheduleMeeting "Intake" "paul@example.com" "13-06-2025" "14:00" 60 ""
        (.ok ()) (.ok ⟨none, none⟩) 99).output =
      "❌ Invalid date/time format. Use YYYY-MM-DD for date and HH:MM for time. Got: "
        ++ "13-06-2025" ++ " " ++ "14:00" :=
  (c1_invalid_format_echoes_and_skips_insert "Intake" "paul@example.com" "13-06-2025"
    "14:00" "" 60 (.ok ⟨none, none⟩) 99 (by decide)).1

/-! ### Claim C6 -/

theorem scheduleMeeting_submitted_of_parse {title att date time desc : String} {dur : Nat}
    {ins : Except String InsertResult} {nowMs : Nat} {dt : PyDateTime}
    (hp : parseDT (date ++ " " ++ time) = some dt)
    (hy : (addMinutes dt dur).year ≤ 9999) :
    (scheduleMeeting title att date time dur desc (.ok ()) ins nowMs).submitted = some
      { summary := title
        description := if desc = "" then defaultDescription else desc
        startDt := dt
        startStr := isoFormat dt
        endDt := addMinutes dt dur
        endStr := isoFormat (addMinutes dt dur)
        timeZone := "America/New_York"
        attendees := [att]
        remindersUseDefault := false
        reminderOverrides := [("email", 1440), ("popup", 30)]
        conferenceRequestId := mkConferenceRequestId nowMs
        conferenceSolutionType := "hangoutsMeet" } := by
  have hny : ¬ ((addMinutes dt dur).year > 9999) := by omega
  cases ins with
  | error e => simp only [scheduleMeeting, hp, if_neg hny]
  | ok r => simp only [scheduleMeeting, hp, if_neg hny]

/-- Counterexample to C6 as stated: the well-formed input
`("9999-12-31", "23:30", 60)` parses, but the end instant would overflow
Python's `datetime` range, so the tool reports an error and builds no event
at all — no event "whose end equals start plus duration" exists. -/
theorem c6_counterexample :
    parseDT ("9999-12-31" ++ " " ++ "23:30") = some ⟨9999, 12, 31, 23, 30, 0⟩ ∧
      (scheduleMeeting "Sync" "a@example.com" "9999-12-31" "23:30" 60 ""
        (.ok ()) (.ok ⟨none, none⟩) 0).submitted = none ∧
      (scheduleMeeting "Sync" "a@example.com" "9999-12-31" "23:30" 60 ""
        (.ok ()) (.ok ⟨none, none⟩) 0).output =
        "❌ Error creating meeting: date value out of range" ++ errCreatingSuffix := by
  refine ⟨by decide, by decide, by decide⟩

/-- C6 (amended): for every well-formed date, time and duration whose end
instant stays within Python's representable `datetime` range, the event
`_sync_schedule_meeting` submits spans exactly from the parsed start to the
start plus `duration_minutes` minutes. -/
theorem c6_end_is_start_plus_duration (title att date time desc : String) (dur : Nat)
    (ins : Except String InsertResult) (nowMs : Nat) (dt : PyDateTime)
    (hp : parseDT (date ++ " " ++ time) = some dt)
    (hrange : toAbsMinutes dt + dur ≤ maxAbsMinutes) :
    ∃ ev, (scheduleMeeting title att date time dur desc (.ok ()) ins nowMs).submitted = some ev ∧
      ev.startDt = dt ∧ ev.endDt = addMinutes dt dur ∧
      toAbsMinutes ev.endDt = toAbsMinutes ev.startDt + dur := by
  obtain ⟨hy1, hy, hok, hh, hmi, hs⟩ := parseDT_valid hp
  obtain ⟨habs, hok2, hh2, hm2⟩ := addMinutes_spec hok hh hmi dur
  have hyle : (addMinutes dt dur).year ≤ 9999 := year_le_of_absMinutes_le (by omega)
  exact ⟨_, scheduleMeeting_submitted_of_parse hp hyle, rfl, rfl, by rw [habs]⟩

/-- Witness for C6's amended theorem at the spec's example: date
`2025-06-10`, time `14:00`, duration 60 (a `14:00`-to-`15:00` event). -/
theorem c6_witness :
    ∃ ev, (scheduleMeeting "Intake" "paul@example.com" "2025-06-10" "14:00" 60 ""
        (.ok ()) (.ok ⟨none, none⟩) 0).submitted = some ev ∧
      ev.startDt = ⟨2025, 6, 10, 14, 0, 0⟩ ∧ ev.endDt = addMinutes ⟨2025, 6, 10, 14, 0, 0⟩ 60 ∧
      toAbsMinutes ev.endDt = toAbsMinutes ev.startDt + 60 :=
  c6_end_is_start_plus_duration "Intake" "paul@example.com" "2025-06-10" "14:00" "" 60
    (.ok ⟨none, none⟩) 0 ⟨2025, 6, 10, 14, 0, 0⟩ (by decide) (by decide)

/-! ### Claim C7 -/

theorem findAvail_window_query {date : String} {dur : Nat}
    {listRes : Except String (List GCalEvent)} {td : PyDateTime}
    (hp : parseDate date = some td) :
    (findAvailableTimes date dur (.ok ()) listRes).window =
        some ({ td with hour := 9, minute := 0, second := 0 },
              { td with hour := 17, minute := 0, second := 0 }) ∧
      (findAvailableTimes date dur (.ok ()) listRes).query =
        some ⟨isoFormat { td with hour := 9, minute := 0, second := 0 } ++ "Z",
              isoFormat { td with hour := 17, minute := 0, second := 0 } ++ "Z",
              true, "startTime"⟩ := by
  unfold findAvailableTimes
  rw [hp]
  cases listRes with
  | error e => exact ⟨rfl, rfl⟩
  | ok events =>
    cases events with
    | nil => exact ⟨rfl, rfl⟩
    | cons e rest =>
      cases hbs : buildBusySlots (e :: rest) with
      | error m => simp [hbs]
      | ok lines => simp [hbs]

/-- C7: for every well-formed date, the availability query window of
`_sync_find_available_times` is exactly 09:00–17:00 on the requested day
(both bounds serialized into the Calendar Client request), and the window
does not depend on the requested duration or on anything the Calendar
Client later returns. -/
theorem c7_business_hours_window (date : String) (dur : Nat)
    (listRes : Except String (List GCalEvent)) (td : PyDateTime)
    (hp : parseDate date = some td) :
    (findAvailableTimes date dur (.ok ()) listRes).window =
        some (⟨td.year, td.month, td.day, 9, 0, 0⟩, ⟨td.year, td.month, td.day, 17, 0, 0⟩) ∧
      (findAvailableTimes date dur (.ok ()) listRes).query =
        some ⟨isoFormat ⟨td.year, td.month, td.day, 9, 0, 0⟩ ++ "Z",
              isoFormat ⟨td.year, td.month, td.day, 17, 0, 0⟩ ++ "Z", true, "startTime"⟩ ∧
      (∀ dur2 listRes2, (findAvailableTimes date dur2 (.ok ()) listRes2).window =
        (findAvailableTimes date dur (.ok ()) listRes).window) := by
  obtain ⟨hw, hq⟩ := @findAvail_window_query date dur listRes td hp
  refine ⟨hw, hq, ?_⟩
  intro dur2 listRes2
  obtain ⟨hw2, _⟩ := @findAvail_window_query date dur2 listRes2 td hp
  rw [hw, hw2]

/-- Witness for C7 at date `2025-06-10` with an empty calendar. -/
theorem c7_witness :
    (findAvailableTimes "2025-06-10" 60 (.ok ()) (.ok [])).window =
      some (⟨2025, 6, 10, 9, 0, 0⟩, ⟨2025, 6, 10, 17, 0, 0⟩) :=
  (c7_business_hours_window "2025-06-10" 60 (.ok []) ⟨2025, 6, 10, 0, 0, 0⟩ (by decide)).1

/-! ### Claim C5 -/

/-- C5: for every well-formed date and every duration, zero returned events
yield the fully-available message, whose trailing suggestion block is built
from the fixed three-element `recommendedTimes` list — the same three times
whatever the requested duration. -/
theorem c5_no_events_fully_available (date : String) (dur : Nat) (td : PyDateTime)
    (hp : parseDate date = some td) :
    (findAvailableTimes date dur (.ok ()) (.ok [])).output =
        "✅ Fully available on " ++ fmtFullDate td
          ++ "\n\nAvailable slots (business hours 9 AM - 5 PM):\n- 9:00 AM - 5:00 PM (entire day open)\n\nRecommended times for "
          ++ Nat.repr dur ++ "-minute meeting:"
          ++ String.join (recommendedTimes.map (fun t => "\n- " ++ t)) ∧
      recommendedTimes.length = 3 := by
  unfold findAvailableTimes
  rw [hp]
  exact ⟨rfl, rfl⟩

/-- Witness for C5 at date `2025-06-10`, duration 60. -/
theorem c5_witness :
    (findAvailableTimes "2025-06-10" 60 (.ok ()) (.ok [])).output =
        "✅ Fully available on " ++ fmtFullDate ⟨2025, 6, 10, 0, 0, 0⟩
          ++ "\n\nAvailable slots (business hours 9 AM - 5 PM):\n- 9:00 AM - 5:00 PM (entire day open)\n\nRecommended times for "
          ++ Nat.repr 60 ++ "-minute meeting:"
          ++ String.join (recommendedTimes.map (fun t => "\n- " ++ t)) ∧
      recommendedTimes.length = 3 :=
  c5_no_events_fully_available "2025-06-10" 60 ⟨2025, 6, 10, 0, 0, 0⟩ (by decide)

/-! ### Claim C8 -/

theorem scheduleMeeting_requestId {title att date time desc : String} {dur : Nat}
    {svc : Except String Unit} {ins : Except String InsertResult} {nowMs : Nat}
    {ev : GEventPayload}
    (h : (scheduleMeeting title att date time dur desc svc ins nowMs).submitted = some ev) :
    ev.conferenceRequestId = mkConferenceRequestId nowMs := by
  cases svc with
  | error e => simp [scheduleMeeting] at h
  | ok u =>
    cases u
    cases hp : parseDT (date ++ " " ++ time) with
    | none => simp [scheduleMeeting, hp] at h
    | some dt =>
      by_cases hy : (addMinutes dt dur).year > 9999
      · simp [scheduleMeeting, hp, if_pos hy] at h
      · have hsub := @scheduleMeeting_submitted_of_parse title att date time desc dur
          ins nowMs dt hp (by omega)
        rw [hsub] at h
        injection h with h2
        rw [← h2]

theorem mkConferenceRequestId_inj {t1 t2 : Nat}
    (h : mkConferenceRequestId t1 = mkConferenceRequestId t2) : t1 / 1000 = t2 / 1000 := by
  unfold mkConferenceRequestId at h
  have hd := congrArg String.data h
  simp only [String.data_append] at hd
  have hc := List.append_cancel_left hd
  have hrepr : Nat.repr (t1 / 1000) = Nat.repr (t2 / 1000) := by
    apply String.ext
    exact hc
  exact nat_repr_inj hrepr

/-- Counterexample to C8 as stated: two distinct calls — different
arguments, invoked at the distinct wall-clock instants 5.0 s and 5.5 s —
receive the identical conference request id `"ip-assistant-5"`, because
`int(datetime.now().timestamp())` truncates to whole seconds. -/
theorem c8_counterexample :
    (5000 : Nat) ≠ 5500 ∧
      ((scheduleMeeting "A" "a@example.com" "2025-06-10" "14:00" 60 ""
        (.ok ()) (.ok ⟨none, none⟩) 5000).submitted.map GEventPayload.conferenceRequestId =
          some "ip-assistant-5") ∧
      ((scheduleMeeting "B" "b@example.com" "2025-06-11" "15:00" 30 ""
        (.ok ()) (.ok ⟨none, none⟩) 5500).submitted.map GEventPayload.conferenceRequestId =
          some "ip-assistant-5") := by
  refine ⟨by decide, by decide, by decide⟩

/-- C8 (amended): the conference request id embeds exactly the integer
second of the call's wall-clock time, so the ids of two calls that both
submit an event coincide precisely when the calls fall in the same integer
second — unique across seconds, shared within one. -/
theorem c8_request_id_second_granularity
    (t1 t2 : Nat) (titleA attA dateA timeA descA : String) (durA : Nat)
    (svcA : Except String Unit) (insA : Except String InsertResult)
    (titleB attB dateB timeB descB : String) (durB : Nat)
    (svcB : Except String Unit) (insB : Except String InsertResult)
    (evA evB : GEventPayload)
    (hA : (scheduleMeeting titleA attA dateA timeA durA descA svcA insA t1).submitted = some evA)
    (hB : (scheduleMeeting titleB attB dateB timeB durB descB svcB insB t2).submitted = some evB) :
    evA.conferenceRequestId = evB.conferenceRequestId ↔ t1 / 1000 = t2 / 1000 := by
  rw [scheduleMeeting_requestId hA, scheduleMeeting_requestId hB]
  constructor
  · exact mkConferenceRequestId_inj
  · intro h
    unfold mkConferenceRequestId
    rw [h]

/-- The payload of a call at wall-clock 5.0 s (used only by the C8 witness). -/
def evFiveSec : GEventPayload where
  summary := "A"
  description := defaultDescription
  startDt := ⟨2025, 6, 10, 14, 0, 0⟩
  startStr := "2025-06-10T14:00:00"
  endDt := ⟨2025, 6, 10, 15, 0, 0⟩
  endStr := "2025-06-10T15:00:00"
  timeZone := "America/New_York"
  attendees := ["a@example.com"]
  remindersUseDefault := false
  reminderOverrides := [("email", 1440), ("popup", 30)]
  conferenceRequestId := "ip-assistant-5"
  conferenceSolutionType := "hangoutsMeet"

/-- The payload of a call at wall-clock 6.2 s (used only by the C8 witness). -/
def evSixSec : GEventPayload where
  summary := "B"
  description := defaultDescription
  startDt := ⟨2025, 6, 11, 15, 0, 0⟩
  startStr := "2025-06-11T15:00:00"
  endDt := ⟨2025, 6, 11, 15, 30, 0⟩
  endStr := "2025-06-11T15:30:00"
  timeZone := "America/New_York"
  attendees := ["b@example.com"]
  remindersUseDefault := false
  reminderOverrides := [("email", 1440), ("popup", 30)]
  conferenceRequestId := "ip-assistant-6"
  conferenceSolutionType := "hangoutsMeet"

/-- Witness for C8's amended theorem: calls at 5.0 s and 6.2 s. -/
theorem c8_witness :
    evFiveSec.conferenceRequestId = evSixSec.conferenceRequestId ↔
      (5000 : Nat) / 1000 = 6200 / 1000 :=
  c8_request_id_second_granularity 5000 6200 "A" "a@example.com" "2025-06-10" "14:00" "" 60
    (.ok ()) (.ok ⟨none, none⟩) "B" "b@example.com" "2025-06-11" "15:00" "" 30
    (.ok ()) (.ok ⟨none, none⟩) evFiveSec evSixSec (by decide) (by decide)

/-! ### Claim C2 -/

/-- C2: every failure a tool body can observe is converted at the tool
boundary into a marked human-readable string (the search tool's marker is
`Error`, the calendar tools' marker is `❌`); in particular a non-200
search status yields exactly the status-bearing message, which contains
the decimal status code. -/
theorem c2_failures_become_marked_strings :
    (∀ q f st ex, st ≠ 200 →
      searchPatents q f (.resp st ex) = "Error: Perplexity API returned status " ++ Nat.repr st ∧
      ∃ u v, (searchPatents q f (.resp st ex)).data = u ++ (Nat.repr st).data ++ v) ∧
    (∀ q f, searchPatents q f .timeout = "Error: Search request timed out. Please try again.") ∧
    (∀ q f m, searchPatents q f (.exc m) = "Error searching patents: " ++ m) ∧
    (∀ q f m, searchPatents q f (.resp 200 (.error m)) = "Error searching patents: " ++ m) ∧
    (∀ title att date time desc dur ins nowMs e,
      (scheduleMeeting title att date time dur desc (.error e) ins nowMs).output =
        "❌ Error creating meeting: " ++ e ++ errCreatingSuffix) ∧
    (∀ title att date time desc dur nowMs e dt, parseDT (date ++ " " ++ time) = some dt →
      (addMinutes dt dur).year ≤ 9999 →
      (scheduleMeeting title att date time dur desc (.ok ()) (.error e) nowMs).output =
        "❌ Error creating meeting: " ++ e ++ errCreatingSuffix) ∧
    (∀ date dur listRes e, (findAvailableTimes date dur (.error e) listRes).output =
      "❌ Error checking availability: " ++ e) ∧
    (∀ date dur e td, parseDate date = some td →
      (findAvailableTimes date dur (.ok ()) (.error e)).output =
        "❌ Error checking availability: " ++ e) ∧
    (∀ date dur events m td, parseDate date = some td → buildBusySlots events = .error m →
      (findAvailableTimes date dur (.ok ()) (.ok events)).output =
        "❌ Error checking availability: " ++ m) ∧
    (∀ daysAhead now avail e, (listUpcomingMeetings daysAhead now (.error e) avail).output =
      "❌ Error listing meetings: " ++ e) ∧
    (∀ daysAhead now avail m, (addMinutes now (1440 * daysAhead)).year ≤ 9999 →
      upPairs (avail.take 20) = .error m →
      (listUpcomingMeetings daysAhead now (.ok ()) avail).output =
        "❌ Error listing meetings: " ++ m) := by
  refine ⟨?_, fun q f => rfl, fun q f m => rfl, fun q f m => rfl,
    fun _ _ _ _ _ _ _ _ _ => rfl, ?_, fun _ _ _ _ => rfl, ?_, ?_, fun _ _ _ _ => rfl, ?_⟩
  · intro q f st ex hst
    have heq : searchPatents q f (.resp st ex) =
        "Error: Perplexity API returned status " ++ Nat.repr st := by
      simp only [searchPatents, if_neg hst]
    refine ⟨heq, ("Error: Perplexity API returned status " : String).data, [], ?_⟩
    rw [heq]
    simp
  · intro title att date time desc dur nowMs e dt hp hy
    simp only [scheduleMeeting, hp, if_neg (by omega : ¬ ((addMinutes dt dur).year > 9999))]
  · intro date dur e td hp
    simp only [findAvailableTimes, hp]
  · intro date dur events m td hp hbs
    have hne : events ≠ [] := by
      intro hc
      subst hc
      simp [buildBusySlots] at hbs
    cases events with
    | nil => exact absurd rfl hne
    | cons e rest => simp only [findAvailableTimes, hp, hbs]
  · intro daysAhead now avail m hy hup
    have hne : avail.take 20 ≠ [] := by
      intro hc
      rw [hc] at hup
      simp [upPairs] at hup
    simp only [listUpcomingMeetings, if_neg (by omega : ¬ ((addMinutes now
      (1440 * daysAhead)).year > 9999))]
    cases hc : avail.take 20 with
    | nil => exact absurd hc hne
    | cons e rest =>
      rw [hc] at hup
      simp only [hup]

/-- Witness for C2: a 500-status search and an auth failure on scheduling. -/
theorem c2_witness :
    searchPatents "q" "patents" (.resp 500 (.ok "body")) =
        "Error: Perplexity API returned status " ++ Nat.repr 500 ∧
      (scheduleMeeting "T" "a@example.com" "2025-06-10" "14:00" 60 ""
        (.error "Failed to refresh Google credentials: boom") (.ok ⟨none, none⟩) 0).output =
        "❌ Error creating meeting: " ++ "Failed to refresh Google credentials: boom"
          ++ errCreatingSuffix :=
  ⟨(c2_failures_become_marked_strings.1 "q" "patents" 500 (.ok "body") (by decide)).1,
    c2_failures_become_marked_strings.2.2.2.2.1 "T" "a@example.com" "2025-06-10" "14:00" ""
      60 (.ok ⟨none, none⟩) 0 "Failed to refresh Google credentials: boom"⟩

/-! ### Claim C10 -/

/-- C10: the upcoming-meetings request caps `maxResults` at 20, and the
tool's entire outcome is unchanged when the calendar holds more than 20
events in the window — only the first 20 (in the client's start-time
order) are ever reflected, the rest silently omitted. -/
theorem c10_truncates_to_first_20 :
    (∀ daysAhead now svc avail, listUpcomingMeetings daysAhead now svc avail =
      listUpcomingMeetings daysAhead now svc (avail.take 20)) ∧
    (∀ daysAhead now avail, (addMinutes now (1440 * daysAhead)).year ≤ 9999 →
      ∃ q, (listUpcomingMeetings daysAhead now (.ok ()) avail).query = some q ∧
        q.maxResults = 20) := by
  constructor
  · intro daysAhead now svc avail
    cases svc with
    | error e => rfl
    | ok u =>
      simp only [listUpcomingMeetings, List.take_take, Nat.min_self]
  · intro daysAhead now avail hy
    simp only [listUpcomingMeetings,
      if_neg (by omega : ¬ ((addMinutes now (1440 * daysAhead)).year > 9999))]
    cases hc : avail.take 20 with
    | nil => exact ⟨_, rfl, rfl⟩
    | cons e rest =>
      cases hup : upPairs (e :: rest) with
      | error m => exact ⟨_, rfl, rfl⟩
      | ok ps => exact ⟨_, rfl, rfl⟩

/-- Witness for C10's second conjunct at `days_ahead = 7`. -/
theorem c10_witness :
    ∃ q, (listUpcomingMeetings 7 ⟨2025, 6, 9, 12, 0, 0⟩ (.ok ()) []).query = some q ∧
      q.maxResults = 20 :=
  c10_truncates_to_first_20.2 7 ⟨2025, 6, 9, 12, 0, 0⟩ [] (by decide)

/-! ### Claim C3 -/

theorem busyLine_ok {e : GCalEvent} {l : String} (h : busyLine e = .ok l) :
    ((e.startRaw).data.contains 'T' = true →
      ∃ st en, parseEventDT e.startRaw = some st ∧ parseEventDT e.endRaw = some en ∧
        l = "• " ++ fmtIMp st ++ " - " ++ fmtIMp en ++ ": " ++ (e.summary).getD "Busy") ∧
    ((e.startRaw).data.contains 'T' = false →
      l = "• All day: " ++ (e.summary).getD "Busy") := by
  unfold busyLine at h
  split at h
  · rename_i hT
    constructor
    · intro _
      cases hst : parseEventDT e.startRaw with
      | none => rw [hst] at h; cases h
      | some st =>
        rw [hst] at h
        cases hen : parseEventDT e.endRaw with
        | none => rw [hen] at h; cases h
        | some en =>
          rw [hen] at h
          injection h with h2
          exact ⟨st, en, rfl, rfl, h2.symm⟩
    · intro hc
      rw [hT] at hc
      cases hc
  · rename_i hT
    have hTf : (e.startRaw).data.contains 'T' = false := by
      cases hv : (e.startRaw).data.contains 'T' with
      | true => exact absurd hv hT
      | false => rfl
    injection h with h2
    refine ⟨fun hc => ?_, fun _ => h2.symm⟩
    rw [hTf] at hc
    cases hc

theorem buildBusySlots_forall2 {events : List GCalEvent} {lines : List String}
    (h : buildBusySlots events = .ok lines) :
    List.Forall₂ (fun e l =>
      ((e.startRaw).data.contains 'T' = true →
        ∃ st en, parseEventDT e.startRaw = some st ∧ parseEventDT e.endRaw = some en ∧
          l = "• " ++ fmtIMp st ++ " - " ++ fmtIMp en ++ ": " ++ (e.summary).getD "Busy") ∧
      ((e.startRaw).data.contains 'T' = false →
        l = "• All day: " ++ (e.summary).getD "Busy")) events lines := by
  induction events generalizing lines with
  | nil =>
    unfold buildBusySlots at h
    injection h with h2
    rw [← h2]
    exact .nil
  | cons e rest ih =>
    unfold buildBusySlots at h
    cases hbl : busyLine e with
    | error m => rw [hbl] at h; cases h
    | ok l =>
      rw [hbl] at h
      cases hbr : buildBusySlots rest with
      | error m => rw [hbr] at h; cases h
      | ok ls =>
        rw [hbr] at h
        injection h with h2
        rw [← h2]
        exact .cons (busyLine_ok hbl) (ih hbr)

/-- The one-timed-event input of the spec's example. -/
def standupEvent : GCalEvent :=
  ⟨"2025-06-10T10:00:00-04:00", "2025-06-10T11:00:00-04:00", some "Standup"⟩

/-- Counterexample to C3 as stated: the `10:00–11:00 "Standup"` event is
rendered as `"• 10:00 AM - 11:00 AM: Standup"` — every busy-slot line (and
every all-day line) carries a `"• "` bullet prefix, so the output line is
not exactly `"10:00 AM - 11:00 AM: Standup"`. -/
theorem c3_counterexample :
    buildBusySlots [standupEvent] = .ok ["• 10:00 AM - 11:00 AM: Standup"] ∧
      ("• 10:00 AM - 11:00 AM: Standup" : String) ≠ "10:00 AM - 11:00 AM: Standup" ∧
      (findAvailableTimes "2025-06-10" 60 (.ok ()) (.ok [standupEvent])).output =
        "📅 Schedule for Tuesday, June 10, 2025:\n\nBusy times:\n• 10:00 AM - 11:00 AM: Standup\n\n💡 Look for 60-minute gaps between meetings for scheduling." := by
  refine ⟨by decide, by decide, by decide⟩

/-- C3 (amended): for every well-formed date and returned event list that
the busy-slot loop processes without a parse failure, the output embeds one
line per event in arrival order: `"• HH:MM AM/PM - HH:MM AM/PM: summary"`
for an event whose start value carries a time component, `"• All day:
summary"` for a date-only event. -/
theorem c3_busy_lines_rendered (date : String) (dur : Nat) (events : List GCalEvent)
    (td : PyDateTime) (lines : List String)
    (hp : parseDate date = some td) (hne : events ≠ [])
    (hbs : buildBusySlots events = .ok lines) :
    (findAvailableTimes date dur (.ok ()) (.ok events)).output =
        "📅 Schedule for " ++ fmtFullDate td ++ ":\n\nBusy times:\n"
          ++ String.intercalate "\n" lines ++ "\n\n💡 Look for " ++ Nat.repr dur
          ++ "-minute gaps between meetings for scheduling." ∧
      List.Forall₂ (fun e l =>
        ((e.startRaw).data.contains 'T' = true →
          ∃ st en, parseEventDT e.startRaw = some st ∧ parseEventDT e.endRaw = some en ∧
            l = "• " ++ fmtIMp st ++ " - " ++ fmtIMp en ++ ": " ++ (e.summary).getD "Busy") ∧
        ((e.startRaw).data.contains 'T' = false →
          l = "• All day: " ++ (e.summary).getD "Busy")) events lines := by
  refine ⟨?_, buildBusySlots_forall2 hbs⟩
  cases events with
  | nil => exact absurd rfl hne
  | cons e rest => simp only [findAvailableTimes, hp, hbs]

/-- Witness for C3's amended theorem at the spec's single-event example. -/
theorem c3_witness :
    (findAvailableTimes "2025-06-10" 60 (.ok ())
        (.ok [standupEvent])).output =
      "📅 Schedule for " ++ fmtFullDate ⟨2025, 6, 10, 0, 0, 0⟩ ++ ":\n\nBusy times:\n"
        ++ String.intercalate "\n" ["• 10:00 AM - 11:00 AM: Standup"] ++ "\n\n💡 Look for "
        ++ Nat.repr 60 ++ "-minute gaps between meetings for scheduling." :=
  (c3_busy_lines_rendered "2025-06-10" 60 [standupEvent] ⟨2025, 6, 10, 0, 0, 0⟩
    ["• 10:00 AM - 11:00 AM: Standup"] (by decide) (by decide) (by decide)).1

/-! ### Claim C4 -/

/-- Grouping of consecutive equal keys, in arrival order — the shape the
spec describes for the day groups. -/
def chunkPairs : List (String × String) → List (String × List String)
  | [] => []
  | (k, l) :: rest =>
    match chunkPairs rest with
    | [] => [(k, [l])]
    | (k2, ls) :: gs => if k2 = k then (k, l :: ls) :: gs else (k, [l]) :: (k2, ls) :: gs

/-- Prepend a group, merging it into the head group when the keys agree. -/
def mergeHead (g : String × List String) (cs : List (String × List String)) :
    List (String × List String) :=
  match cs with
  | [] => [g]
  | (k2, ls2) :: gs => if k2 = g.1 then (g.1, g.2 ++ ls2) :: gs else g :: (k2, ls2) :: gs

theorem chunkPairs_cons (p : String × String) (rest : List (String × String)) :
    chunkPairs (p :: rest) = mergeHead (p.1, [p.2]) (chunkPairs rest) := by
  obtain ⟨k, l⟩ := p
  cases hc : chunkPairs rest with
  | nil => simp [chunkPairs, mergeHead, hc]
  | cons g gs =>
    obtain ⟨k2, ls2⟩ := g
    by_cases hk : k2 = k <;> simp [chunkPairs, mergeHead, hc, hk]

theorem mem_chunkPairs_keys {z : String} {l : List (String × String)}
    (h : z ∈ l.map Prod.fst) : z ∈ (chunkPairs l).map Prod.fst := by
  induction l with
  | nil => simp at h
  | cons p rest ih =>
    rw [chunkPairs_cons]
    rw [List.map_cons] at h
    cases h with
    | head =>
      cases hc : chunkPairs rest with
      | nil => simp [mergeHead]
      | cons g gs =>
        obtain ⟨k2, ls2⟩ := g
        by_cases hk : k2 = p.1 <;> simp [mergeHead, hk]
    | tail _ hz =>
      have hm := ih hz
      cases hc : chunkPairs rest with
      | nil => rw [hc] at hm; simp at hm
      | cons g gs =>
        obtain ⟨k2, ls2⟩ := g
        rw [hc] at hm
        simp only [List.map_cons, List.mem_cons] at hm
        by_cases hk : k2 = p.1
        · subst hk
          simp only [mergeHead, eq_self_iff_true, if_true, List.map_cons, List.mem_cons]
          exact hm
        · simp only [mergeHead, if_neg hk, List.map_cons, List.mem_cons]
          rcases hm with h1 | h1
          · exact Or.inr (Or.inl h1)
          · exact Or.inr (Or.inr h1)

theorem insertGroup_fresh {gs : List (String × List String)} {key line : String}
    (h : ∀ g ∈ gs, g.1 ≠ key) : insertGroup gs key line = gs ++ [(key, [line])] := by
  have hany : (gs.any (fun g => g.1 = key)) = false := by
    rw [List.any_eq_false]
    intro g hg
    simpa using h g hg
  unfold insertGroup
  rw [hany]
  simp

theorem insertGroup_last {pre : List (String × List String)} {k line : String}
    {ls : List String} (h : ∀ g ∈ pre, g.1 ≠ k) :
    insertGroup (pre ++ [(k, ls)]) k line = pre ++ [(k, ls ++ [line])] := by
  have hany : ((pre ++ [(k, ls)]).any (fun g => g.1 = k)) = true := by simp
  unfold insertGroup
  rw [hany]
  simp only [if_true]
  rw [List.map_append]
  congr 1
  · have hcg : ∀ g ∈ pre, (fun g : String × List String =>
        if g.1 = k then (g.1, g.2 ++ [line]) else g) g = id g := by
      intro g hg
      simp [h g hg]
    rw [List.map_congr_left hcg, List.map_id]
  · simp

theorem mergeHead_keys (b : String) (x : List String) :
    ∀ C : List (String × List String),
      (mergeHead (b, x) C).map Prod.fst = b :: (C.map Prod.fst).drop 1 ∨
      (mergeHead (b, x) C).map Prod.fst = b :: C.map Prod.fst := by
  intro C
  cases C with
  | nil => right; simp [mergeHead]
  | cons g gs =>
    obtain ⟨k2, ls2⟩ := g
    by_cases hk2 : k2 = b
    · left; simp [mergeHead, hk2]
    · right; simp [mergeHead, hk2]

theorem nodup_of_mergeHead {b : String} {x : List String} {C : List (String × List String)}
    (h : ((mergeHead (b, x) C).map Prod.fst).Nodup) : ((C.map Prod.fst)).Nodup := by
  cases C with
  | nil => simp
  | cons g gs =>
    obtain ⟨k2, ls2⟩ := g
    by_cases hk2 : k2 = b
    · subst hk2
      simp only [mergeHead, eq_self_iff_true, if_true, List.map_cons] at h
      simpa using h
    · simp only [mergeHead, if_neg hk2, List.map_cons] at h
      exact h.tail

theorem head_notin_drop_of_mergeHead {b : String} {x : List String}
    {C : List (String × List String)}
    (h : ((mergeHead (b, x) C).map Prod.fst).Nodup) : b ∉ (C.map Prod.fst).drop 1 := by
  cases C with
  | nil => simp
  | cons g gs =>
    obtain ⟨k2, ls2⟩ := g
    by_cases hk2 : k2 = b
    · subst hk2
      simp only [mergeHead, eq_self_iff_true, if_true, List.map_cons] at h
      simpa using (List.nodup_cons.mp h).1
    · simp only [mergeHead, if_neg hk2, List.map_cons] at h
      have hb : b ∉ (k2 :: gs.map Prod.fst) := (List.nodup_cons.mp h).1
      intro hc
      exact hb (List.mem_cons_of_mem _ (by simpa using hc))

theorem mergeHead_ne {b k : String} {x ls : List String} {C : List (String × List String)}
    (hbk : b ≠ k) : mergeHead (k, ls) (mergeHead (b, x) C) = (k, ls) :: mergeHead (b, x) C := by
  cases C with
  | nil => simp [mergeHead, hbk]
  | cons g gs =>
    obtain ⟨k2, ls2⟩ := g
    by_cases hk2 : k2 = b <;> simp [mergeHead, hk2, hbk]

theorem foldl_ins_merge :
    ∀ (ps : List (String × String)) (pre : List (String × List String)) (k : String)
      (ls : List String),
      ((chunkPairs ps).map Prod.fst).Nodup →
      (∀ g ∈ pre, g.1 ≠ k ∧ g.1 ∉ ps.map Prod.fst) →
      k ∉ ((chunkPairs ps).map Prod.fst).drop 1 →
      List.foldl (fun gs p => insertGroup gs p.1 p.2) (pre ++ [(k, ls)]) ps =
        pre ++ mergeHead (k, ls) (chunkPairs ps) := by
  intro ps
  induction ps with
  | nil =>
    intro pre k ls _ _ _
    simp [chunkPairs, mergeHead]
  | cons p rest ih =>
    intro pre k ls hnd hpre hk
    obtain ⟨b, l⟩ := p
    rw [List.foldl_cons]
    rw [chunkPairs_cons] at hnd hk ⊢
    try dsimp only at hnd hk ⊢
    have hndC : ((chunkPairs rest).map Prod.fst).Nodup := nodup_of_mergeHead hnd
    have hbC : b ∉ ((chunkPairs rest).map Prod.fst).drop 1 :=
      head_notin_drop_of_mergeHead hnd
    by_cases hbk : b = k
    · subst hbk
      have hins : insertGroup (pre ++ [(b, ls)]) b l = pre ++ [(b, ls ++ [l])] :=
        insertGroup_last (fun g hg => (hpre g hg).1)
      show List.foldl _ (insertGroup (pre ++ [(b, ls)]) b l) rest = _
      rw [hins]
      have hpre' : ∀ g ∈ pre, g.1 ≠ b ∧ g.1 ∉ rest.map Prod.fst := fun g hg =>
        ⟨(hpre g hg).1, fun hc => (hpre g hg).2 (by simp [hc])⟩
      rw [ih pre b (ls ++ [l]) hndC hpre' hbC]
      congr 1
      cases hC : chunkPairs rest with
      | nil => simp [mergeHead]
      | cons g gs =>
        obtain ⟨k2, ls2⟩ := g
        by_cases hk2 : k2 = b
        · subst hk2
          simp [mergeHead, List.append_assoc]
        · simp [mergeHead, hk2]
    · have hfresh : ∀ g ∈ pre ++ [(k, ls)], g.1 ≠ b := by
        intro g hg
        rcases List.mem_append.mp hg with hg1 | hg1
        · intro hc
          exact (hpre g hg1).2 (by simp [hc])
        · have hgk : g = (k, ls) := by simpa using hg1
          rw [hgk]
          exact fun hc => hbk (hc.symm)
      have hins : insertGroup (pre ++ [(k, ls)]) b l = (pre ++ [(k, ls)]) ++ [(b, [l])] :=
        insertGroup_fresh hfresh
      show List.foldl _ (insertGroup (pre ++ [(k, ls)]) b l) rest = _
      rw [hins]
      have hknotC : k ∉ (chunkPairs rest).map Prod.fst := by
        cases hC : chunkPairs rest with
        | nil => simp
        | cons g gs =>
          obtain ⟨k2, ls2⟩ := g
          rw [hC] at hk
          by_cases hx : k2 = b
          · subst hx
            simp only [mergeHead, eq_self_iff_true, if_true, List.map_cons,
              List.drop_one, List.tail_cons] at hk
            simp only [List.map_cons, List.mem_cons]
            intro hc
            rcases hc with hc | hc
            · exact hbk (hc.symm)
            · exact hk hc
          · simp only [mergeHead, if_neg hx, List.map_cons, List.drop_one,
              List.tail_cons] at hk
            intro hc
            exact hk (by simpa using hc)
      have hpre'' : ∀ g ∈ pre ++ [(k, ls)], g.1 ≠ b ∧ g.1 ∉ rest.map Prod.fst := by
        intro g hg
        refine ⟨hfresh g hg, ?_⟩
        rcases List.mem_append.mp hg with hg1 | hg1
        · exact fun hc => (hpre g hg1).2 (by simp [hc])
        · have hgk : g = (k, ls) := by simpa using hg1
          rw [hgk]
          intro hc
          exact hknotC (mem_chunkPairs_keys hc)
      rw [ih (pre ++ [(k, ls)]) b [l] hndC hpre'' hbC]
      rw [mergeHead_ne hbk]
      simp only [List.append_assoc, List.singleton_append]

theorem groupPairs_eq_chunkPairs {ps : List (String × String)}
    (h : ((chunkPairs ps).map Prod.fst).Nodup) : groupPairs ps = chunkPairs ps := by
  cases ps with
  | nil => rfl
  | cons p rest =>
    unfold groupPairs
    rw [List.foldl_cons]
    have h0 : insertGroup [] p.1 p.2 = [] ++ [(p.1, [p.2])] := rfl
    rw [h0]
    rw [chunkPairs_cons] at h
    rw [foldl_ins_merge rest [] p.1 [p.2] (nodup_of_mergeHead h) (by simp)
      (head_notin_drop_of_mergeHead h)]
    rw [chunkPairs_cons]
    simp

theorem upPairs_cons (e : GCalEvent) (rest : List GCalEvent) :
    upPairs (e :: rest) =
      match upEntry e with
      | Except.error m => Except.error m
      | Except.ok (some pr) =>
        match upPairs rest with
        | Except.error m => Except.error m
        | Except.ok ps => Except.ok (pr :: ps)
      | Except.ok none => upPairs rest := rfl

theorem upPairs_filter_timed (events : List GCalEvent) :
    upPairs events = upPairs (events.filter (fun e => (e.startRaw).data.contains 'T')) := by
  induction events with
  | nil => rfl
  | cons e rest ih =>
    by_cases hT : (e.startRaw).data.contains 'T' = true
    · rw [List.filter_cons_of_pos (p := fun ev : GCalEvent => (ev.startRaw).data.contains 'T') hT]
      rw [upPairs_cons, upPairs_cons, ih]
    · have hTf : (e.startRaw).data.contains 'T' = false := by
        cases hv : (e.startRaw).data.contains 'T' with
        | true => exact absurd hv hT
        | false => rfl
      rw [List.filter_cons_of_neg (p := fun ev : GCalEvent => (ev.startRaw).data.contains 'T')
        (by simpa using hTf)]
      have he : upEntry e = .ok none := by
        unfold upEntry
        rw [if_neg (by rw [hTf]; exact Bool.false_ne_true)]
      rw [upPairs_cons, he]
      exact ih

/-- C4: (i) an empty window yields the "no meetings" message parameterized
by `days_ahead`; (ii) all-day events — start value without a time
component — are excluded: the collected `(day, line)` pairs are exactly
those of the timed-only sublist; (iii) the dict grouping equals
consecutive-run grouping whenever no day key recurs in separated runs
(which the Calendar Client's ascending start-time ordering guarantees
inside a sub-year window), so day headers appear in arrival —
chronological — order with arrival order preserved inside each group;
(iv) the output is exactly the rendering of those groups. -/
theorem c4_groups_timed_events_by_day :
    (∀ daysAhead : Nat, ∀ now : PyDateTime, (addMinutes now (1440 * daysAhead)).year ≤ 9999 →
      (listUpcomingMeetings daysAhead now (.ok ()) []).output =
        "📭 No upcoming meetings in the next " ++ Nat.repr daysAhead ++ " days.") ∧
    (∀ events : List GCalEvent,
      upPairs events = upPairs (events.filter (fun e => (e.startRaw).data.contains 'T'))) ∧
    (∀ ps : List (String × String), ((chunkPairs ps).map Prod.fst).Nodup →
      groupPairs ps = chunkPairs ps) ∧
    (∀ (daysAhead : Nat) (now : PyDateTime) (avail : List GCalEvent)
        (ps : List (String × String)),
      (addMinutes now (1440 * daysAhead)).year ≤ 9999 →
      upPairs (avail.take 20) = .ok ps → avail.take 20 ≠ [] →
      (listUpcomingMeetings daysAhead now (.ok ()) avail).output =
        renderUpcoming daysAhead (groupPairs ps)) := by
  refine ⟨?_, upPairs_filter_timed, fun ps h => groupPairs_eq_chunkPairs h, ?_⟩
  · intro daysAhead now hy
    simp only [listUpcomingMeetings, List.take_nil,
      if_neg (by omega : ¬ ((addMinutes now (1440 * daysAhead)).year > 9999))]
  · intro daysAhead now avail ps hy hup hne
    simp only [listUpcomingMeetings,
      if_neg (by omega : ¬ ((addMinutes now (1440 * daysAhead)).year > 9999))]
    cases hc : avail.take 20 with
    | nil => exact absurd hc hne
    | cons e rest =>
      rw [hc] at hup
      simp only [hc, hup]

/-- Witness for C4: the empty window at `days_ahead = 7`, and a two-day
window (timed events on June 10 and June 11, 2025, sorted) grouped into
two day headers with the all-day event between them omitted. -/
theorem c4_witness :
    ((listUpcomingMeetings 7 ⟨2025, 6, 9, 12, 0, 0⟩ (.ok ()) []).output =
      "📭 No upcoming meetings in the next " ++ Nat.repr 7 ++ " days.") ∧
    (upPairs [standupEvent, ⟨"2025-06-11", "2025-06-12", some "Offsite"⟩,
        ⟨"2025-06-11T09:30:00-04:00", "2025-06-11T10:00:00-04:00", none⟩] =
      upPairs ([standupEvent, ⟨"2025-06-11", "2025-06-12", some "Offsite"⟩,
        ⟨"2025-06-11T09:30:00-04:00", "2025-06-11T10:00:00-04:00", none⟩].filter
          (fun e => (e.startRaw).data.contains 'T'))) ∧
    (groupPairs [("Tuesday, June 10", "  • 10:00 AM: Standup"),
        ("Wednesday, June 11", "  • 09:30 AM: No title")] =
      chunkPairs [("Tuesday, June 10", "  • 10:00 AM: Standup"),
        ("Wednesday, June 11", "  • 09:30 AM: No title")]) ∧
    ((listUpcomingMeetings 7 ⟨2025, 6, 9, 12, 0, 0⟩ (.ok ())
        [standupEvent, ⟨"2025-06-11", "2025-06-12", some "Offsite"⟩,
          ⟨"2025-06-11T09:30:00-04:00", "2025-06-11T10:00:00-04:00", none⟩]).output =
      renderUpcoming 7 (groupPairs [("Tuesday, June 10", "  • 10:00 AM: Standup"),
        ("Wednesday, June 11", "  • 09:30 AM: No title")])) :=
  ⟨c4_groups_timed_events_by_day.1 7 ⟨2025, 6, 9, 12, 0, 0⟩ (by decide),
    c4_groups_timed_events_by_day.2.1 _,
    c4_groups_timed_events_by_day.2.2.1 _ (by decide),
    c4_groups_timed_events_by_day.2.2.2 7 ⟨2025, 6, 9, 12, 0, 0⟩ _ _ (by decide) (by decide)
      (by decide)⟩
